import Mathlib

/-!
Verification development for the hydronics repository (a hydronic heating
design tool).  The TypeScript sources of the two core engines are shallowly
embedded here:

* `src/calc/heatLoss.ts`   — heat-loss model (pure arithmetic),
* `src/calc/piping.ts`     — piping physics tables and checks,
* `src/calc/autoLayout.ts` — zone classification, layout extraction and
  orthogonal pipe routing,
* `src/calc/simulation.ts` — the per-tick thermal simulation pipeline.

Embedding conventions:

* JavaScript numbers are modelled by `ℚ`.  `Math.round` rounds half towards
  +∞, exactly Mathlib's `round` on `ℚ`.  Where a claim turns on IEEE
  non-finite values (NaN / ±Infinity produced by an unguarded division) a
  dedicated four-constructor type `JNum` models JS arithmetic including the
  non-finite values; the `…N` definitions below are the `JNum` readings of
  the corresponding source functions.
* `Record<string, T>` and `Map<string, T>` are modelled by insertion-ordered
  association lists (`List (String × T)`) with JS `Map.set` semantics
  (`setJ`: overwrite in place, else append) and `Map.get` (`getJ`).
* `Math.sqrt` (irrational on ℚ) is passed in as an explicit function
  parameter `sq`; claims proved about the pipeline hold for every choice of
  `sq`.  Likewise `Math.pow` with fractional exponents is a parameter `pw`
  of the Hazen-Williams formula, and the external dagre layout library is a
  parameter `dagreNode` of `autoLayoutSystem` (the component-position
  extraction that follows the dagre call is repository code and is embedded
  faithfully).
* String-literal union types (`ComponentType`, statuses, pipe roles,
  foundation types) are modelled as `String`, as in the source.
-/

/-- JS `Math.round` on a rational: round half towards +∞. -/
def jround (x : ℚ) : ℚ := (round x : ℤ)

-- ─────────────────────────────────────────────────────────────────────────────
-- Insertion-ordered string maps (JS `Map` / plain objects)
-- ─────────────────────────────────────────────────────────────────────────────

/-- JS `Map.set`: overwrite an existing key in place, otherwise append. -/
def setJ {α : Type} (m : List (String × α)) (k : String) (v : α) :
    List (String × α) :=
  if m.any (fun p => p.1 == k) then
    m.map (fun p => if p.1 == k then (k, v) else p)
  else
    m ++ [(k, v)]

/-- JS `Map.get` (`undefined` becomes `none`). -/
def getJ {α : Type} (m : List (String × α)) (k : String) : Option α :=
  (m.find? (fun p => p.1 == k)).map (fun p => p.2)

/-- JS `Map.has`. -/
def hasJ {α : Type} (m : List (String × α)) (k : String) : Bool :=
  m.any (fun p => p.1 == k)

/-- Lower-casing used by the JS `toLowerCase()` calls (ASCII). -/
def lowerStr (s : String) : String := s.map Char.toLower

/-- JS `String.prototype.includes`: contiguous substring test. -/
def strIncludes (s sub : String) : Bool := decide (sub.data <:+: s.data)

-- ─────────────────────────────────────────────────────────────────────────────
-- Data model (src/types.ts)
-- ─────────────────────────────────────────────────────────────────────────────

structure Position where
  x : ℚ
  y : ℚ
deriving DecidableEq, Repr

structure ClimateConfig where
  designOutdoorTemp : ℚ
  indoorDesignTemp : ℚ
  heatingDegreeDays : ℚ
  climateZone : ℚ
deriving DecidableEq, Repr

structure InsulationValues where
  walls : ℚ
  ceiling : ℚ
  floor : ℚ
  basementWalls : ℚ
deriving DecidableEq, Repr

structure WindowDoorConfig where
  totalWindowArea : ℚ
  windowUValue : ℚ
  exteriorDoorCount : ℚ
  doorUValue : ℚ
  doorArea : ℚ
deriving DecidableEq, Repr

structure InfiltrationConfig where
  ach : ℚ
  blowerDoorCFM50 : Option ℚ
deriving DecidableEq, Repr

structure BuildingConfig where
  climate : ClimateConfig
  totalSqFt : ℚ
  floors : ℚ
  ceilingHeight : ℚ
  foundationType : String
  insulation : InsulationValues
  windowDoor : WindowDoorConfig
  infiltration : InfiltrationConfig
deriving DecidableEq, Repr

structure Zone where
  id : String
  name : String
  sqFt : ℚ
  heatLossOverride : Option ℚ
  designWaterTemp : ℚ
  emitterType : Option String
  priority : ℚ
deriving DecidableEq, Repr

/-- Union of the `props` fields the embedded code reads: the boiler fields
used by `calculateBoilerState` and the baseboard length used by the layout
sizing.  Other per-variant fields are never consulted by the embedded
functions. -/
structure ComponentProps where
  inputBtu : ℚ
  afue : ℚ
  minFiringRate : ℚ
  maxSupplyTemp : ℚ
  lengthFt : Option ℚ
deriving DecidableEq, Repr

structure HydronicComponent where
  type : String
  name : String
  position : Position
  rotation : ℚ
  flippedH : Bool
  flippedV : Bool
  props : ComponentProps
deriving DecidableEq, Repr

structure Connection where
  id : String
  pipeId : String
  fromComponentId : String
  fromPortId : String
  toComponentId : String
  toPortId : String
deriving DecidableEq, Repr

inductive PipeMaterial where
  | copper | pex | pexAlPex | blackSteel | cpvc
deriving DecidableEq, Repr

inductive PipeSize where
  | s12 | s34 | s1 | s114 | s112 | s2
deriving DecidableEq, Repr

structure ComponentSimState where
  supplyTemp : ℚ
  returnTemp : ℚ
  flowGpm : ℚ
  status : String
deriving DecidableEq, Repr

-- ─────────────────────────────────────────────────────────────────────────────
-- Heat-loss model (src/calc/heatLoss.ts), rational reading
-- ─────────────────────────────────────────────────────────────────────────────

structure HeatLossBreakdown where
  walls : ℚ
  windows : ℚ
  doors : ℚ
  ceiling : ℚ
  floor : ℚ
  infiltration : ℚ
  total : ℚ
deriving DecidableEq, Repr

/-- `rToU(r) = r > 0 ? 1 / r : 1` -/
def rToU (r : ℚ) : ℚ := if 0 < r then 1 / r else 1

/-- `deltaT(building)` -/
def deltaT (building : BuildingConfig) : ℚ :=
  building.climate.indoorDesignTemp - building.climate.designOutdoorTemp

/-- `estimateWallArea`.  `sq` models `Math.sqrt`.  Note: the source divides
`totalSqFt / floors` with no guard; in this rational reading `x / 0 = 0`,
while JS produces a non-finite value — the `JNum` reading
`estimateWallAreaN` below captures the JS behaviour where it matters. -/
def estimateWallArea (sq : ℚ → ℚ) (building : BuildingConfig) : ℚ :=
  let footprintSqFt := building.totalSqFt / building.floors
  let side := sq footprintSqFt
  let perimeter := 4 * side
  let grossWall := perimeter * building.ceilingHeight * building.floors
  let windowArea := building.windowDoor.totalWindowArea
  let doorArea := building.windowDoor.exteriorDoorCount * building.windowDoor.doorArea
  max 0 (grossWall - windowArea - doorArea)

/-- `buildingVolume` -/
def buildingVolume (building : BuildingConfig) : ℚ :=
  building.totalSqFt * building.ceilingHeight

/-- `infiltrationCFM` -/
def infiltrationCFM (building : BuildingConfig) : ℚ :=
  buildingVolume building * building.infiltration.ach / 60

/-- `calculateHeatLoss` -/
def calculateHeatLoss (sq : ℚ → ℚ) (building : BuildingConfig) : HeatLossBreakdown :=
  let dt := deltaT building
  let wallArea := estimateWallArea sq building
  let wallU := rToU building.insulation.walls
  let walls := wallU * wallArea * dt
  let windowArea := building.windowDoor.totalWindowArea
  let windows := building.windowDoor.windowUValue * windowArea * dt
  let doorArea := building.windowDoor.exteriorDoorCount * building.windowDoor.doorArea
  let doors := building.windowDoor.doorUValue * doorArea * dt
  let ceilingArea := building.totalSqFt / building.floors
  let ceilingU := rToU building.insulation.ceiling
  let ceiling := ceilingU * ceilingArea * dt
  let floorArea := building.totalSqFt / building.floors
  let floorU := rToU building.insulation.floor
  let floorDt :=
    if building.foundationType == "slab" then dt
    else building.climate.indoorDesignTemp - 55
  let floor := floorU * floorArea * max 0 floorDt
  let cfm := infiltrationCFM building
  let infiltration := 0.018 * cfm * dt
  let total := walls + windows + doors + ceiling + floor + infiltration
  ⟨walls, windows, doors, ceiling, floor, infiltration, total⟩

/-- `allocateZoneHeatLoss` (rational reading; the unguarded
`z.sqFt / totalSqFt` divides by zero silently here — see
`allocateZoneHeatLossN` for the JS reading). -/
def allocateZoneHeatLoss (totalLoss totalSqFt : ℚ) (zones : List Zone) :
    List (String × ℚ) :=
  zones.foldl
    (fun result z =>
      match z.heatLossOverride with
      | some v => setJ result z.id v
      | none => setJ result z.id (z.sqFt / totalSqFt * totalLoss))
    []

/-- `requiredGPM(btu, deltaT) = deltaT <= 0 ? 0 : btu / (500 * deltaT)` -/
def requiredGPM (btu dT : ℚ) : ℚ :=
  if dT ≤ 0 then 0 else btu / (500 * dT)

/-- `btuFromFlow` -/
def btuFromFlow (gpm dT : ℚ) : ℚ := gpm * 500 * dT

-- ─────────────────────────────────────────────────────────────────────────────
-- Piping physics (src/calc/piping.ts), rational reading
-- ─────────────────────────────────────────────────────────────────────────────

/-- Inside-diameter table `pipeID` (inches). -/
def pipeID (material : PipeMaterial) (size : PipeSize) : ℚ :=
  match material, size with
  | .copper, .s12 => 0.545
  | .copper, .s34 => 0.785
  | .copper, .s1 => 1.025
  | .copper, .s114 => 1.265
  | .copper, .s112 => 1.505
  | .copper, .s2 => 1.985
  | .pex, .s12 => 0.475
  | .pex, .s34 => 0.671
  | .pex, .s1 => 0.862
  | .pex, .s114 => 1.062
  | .pex, .s112 => 1.262
  | .pex, .s2 => 1.662
  | .pexAlPex, .s12 => 0.5
  | .pexAlPex, .s34 => 0.704
  | .pexAlPex, .s1 => 0.89
  | .pexAlPex, .s114 => 1.1
  | .pexAlPex, .s112 => 1.3
  | .pexAlPex, .s2 => 1.7
  | .blackSteel, .s12 => 0.622
  | .blackSteel, .s34 => 0.824
  | .blackSteel, .s1 => 1.049
  | .blackSteel, .s114 => 1.38
  | .blackSteel, .s112 => 1.61
  | .blackSteel, .s2 => 2.067
  | .cpvc, .s12 => 0.485
  | .cpvc, .s34 => 0.687
  | .cpvc, .s1 => 0.894
  | .cpvc, .s114 => 1.1
  | .cpvc, .s112 => 1.3
  | .cpvc, .s2 => 1.7

/-- Hazen-Williams roughness table `C_FACTOR`. -/
def cFactor (material : PipeMaterial) : ℚ :=
  match material with
  | .copper => 130
  | .pex => 150
  | .pexAlPex => 145
  | .blackSteel => 100
  | .cpvc => 140

/-- `velocity(gpm, id) = id <= 0 ? 0 : 0.408 * gpm / (id * id)` -/
def velocity (gpm id : ℚ) : ℚ :=
  if id ≤ 0 then 0 else 0.408 * gpm / (id * id)

/-- `velocityWarning` -/
def velocityWarning (gpm : ℚ) (material : PipeMaterial) (size : PipeSize) :
    String :=
  let id := pipeID material size
  let v := velocity gpm id
  if v < 1.5 then "low"
  else if 4 < v then "high"
  else "ok"

-- ─────────────────────────────────────────────────────────────────────────────
-- JS number semantics (IEEE NaN / ±Infinity) for the division-guard claims
-- ─────────────────────────────────────────────────────────────────────────────

/-- A JS `number` as it matters for the guard claims: an exact finite value,
one of the two infinities, or NaN. -/
inductive JNum where
  | fin (q : ℚ)
  | posInf
  | negInf
  | nan
deriving DecidableEq, Repr

/-- `true` iff the value is neither NaN nor an infinity. -/
def JNum.isFinite : JNum → Bool
  | .fin _ => true
  | _ => false

/-- JS multiplication. -/
def jmul : JNum → JNum → JNum
  | .nan, _ => .nan
  | _, .nan => .nan
  | .fin a, .fin b => .fin (a * b)
  | .fin a, .posInf => if 0 < a then .posInf else if a < 0 then .negInf else .nan
  | .fin a, .negInf => if 0 < a then .negInf else if a < 0 then .posInf else .nan
  | .posInf, .fin b => if 0 < b then .posInf else if b < 0 then .negInf else .nan
  | .negInf, .fin b => if 0 < b then .negInf else if b < 0 then .posInf else .nan
  | .posInf, .posInf => .posInf
  | .posInf, .negInf => .negInf
  | .negInf, .posInf => .negInf
  | .negInf, .negInf => .posInf

/-- JS division. -/
def jdiv : JNum → JNum → JNum
  | .nan, _ => .nan
  | _, .nan => .nan
  | .fin a, .fin b =>
    if b = 0 then (if a = 0 then .nan else if 0 < a then .posInf else .negInf)
    else .fin (a / b)
  | .fin _, .posInf => .fin 0
  | .fin _, .negInf => .fin 0
  | .posInf, .fin b => if b < 0 then .negInf else .posInf
  | .negInf, .fin b => if b < 0 then .posInf else .negInf
  | .posInf, .posInf => .nan
  | .posInf, .negInf => .nan
  | .negInf, .posInf => .nan
  | .negInf, .negInf => .nan

/-- JS subtraction. -/
def jsub : JNum → JNum → JNum
  | .nan, _ => .nan
  | _, .nan => .nan
  | .fin a, .fin b => .fin (a - b)
  | .fin _, .posInf => .negInf
  | .fin _, .negInf => .posInf
  | .posInf, .fin _ => .posInf
  | .negInf, .fin _ => .negInf
  | .posInf, .posInf => .nan
  | .posInf, .negInf => .posInf
  | .negInf, .posInf => .negInf
  | .negInf, .negInf => .nan

/-- JS `Math.max` (NaN-propagating). -/
def jmax : JNum → JNum → JNum
  | .nan, _ => .nan
  | _, .nan => .nan
  | .posInf, _ => .posInf
  | _, .posInf => .posInf
  | .negInf, b => b
  | a, .negInf => a
  | .fin a, .fin b => .fin (max a b)

/-- `rToU` under JS number semantics. -/
def rToUN (r : ℚ) : JNum :=
  if 0 < r then jdiv (.fin 1) (.fin r) else .fin 1

/-- `velocity` under JS number semantics. -/
def velocityN (gpm id : ℚ) : JNum :=
  if id ≤ 0 then .fin 0
  else jdiv (jmul (.fin 0.408) (.fin gpm)) (jmul (.fin id) (.fin id))

/-- `requiredGPM` under JS number semantics. -/
def requiredGPMN (btu dT : ℚ) : JNum :=
  if dT ≤ 0 then .fin 0 else jdiv (.fin btu) (jmul (.fin 500) (.fin dT))

/-- `frictionLossPer100Ft` under JS number semantics; `pw` models `Math.pow`
(base and exponent as JS numbers, here reached only with finite rational
arguments). -/
def frictionLossPer100FtN (pw : ℚ → ℚ → JNum) (gpm : ℚ)
    (material : PipeMaterial) (size : PipeSize) : JNum :=
  let id := pipeID material size
  let c := cFactor material
  if id ≤ 0 ∨ gpm ≤ 0 then .fin 0
  else
    jmul (jmul (jmul (.fin 0.002083) (.fin 100)) (pw (100 / c) 1.852))
      (jdiv (pw gpm 1.852) (pw id 4.8655))

/-- `estimateWallArea` under JS number semantics; `sq` models `Math.sqrt`.
The source has no guard on `totalSqFt / floors`. -/
def estimateWallAreaN (sq : JNum → JNum) (building : BuildingConfig) : JNum :=
  let footprintSqFt := jdiv (.fin building.totalSqFt) (.fin building.floors)
  let side := sq footprintSqFt
  let perimeter := jmul (.fin 4) side
  let grossWall := jmul (jmul perimeter (.fin building.ceilingHeight)) (.fin building.floors)
  let windowArea : JNum := .fin building.windowDoor.totalWindowArea
  let doorArea := jmul (.fin building.windowDoor.exteriorDoorCount) (.fin building.windowDoor.doorArea)
  jmax (.fin 0) (jsub (jsub grossWall windowArea) doorArea)

/-- `allocateZoneHeatLoss` under JS number semantics.  The proportional
branch divides by `totalSqFt` with no guard. -/
def allocateZoneHeatLossN (totalLoss totalSqFt : ℚ) (zones : List Zone) :
    List (String × JNum) :=
  zones.foldl
    (fun result z =>
      match z.heatLossOverride with
      | some v => setJ result z.id (.fin v)
      | none =>
        setJ result z.id
          (jmul (jdiv (.fin z.sqFt) (.fin totalSqFt)) (.fin totalLoss)))
    []

/-- The guarded delta-T expression of `calculateZoneFlows` (line
`const deltaT = flowGpm > 0 ? zone.currentHeatLoss / (500 * flowGpm) : 0`)
under JS number semantics. -/
def zoneFlowDeltaTN (currentHeatLoss flowGpm : ℚ) : JNum :=
  if 0 < flowGpm then jdiv (.fin currentHeatLoss) (jmul (.fin 500) (.fin flowGpm))
  else .fin 0

-- ─────────────────────────────────────────────────────────────────────────────
-- Zone classification (src/calc/autoLayout.ts, buildComponentZoneMap)
-- ─────────────────────────────────────────────────────────────────────────────

/-- The fixed `mechanicalTypes` set of `buildComponentZoneMap`. -/
def mechanicalTypes : List String :=
  ["boiler_gas", "boiler_oil", "boiler_electric", "heat_pump_a2w",
   "pump_fixed", "pump_variable", "air_separator", "expansion_tank",
   "buffer_tank", "hydraulic_separator", "pressure_relief", "fill_valve",
   "air_vent"]

/-- The `emitterTypes` set local to `buildComponentZoneMap`. -/
def emitterTypesLayout : List String :=
  ["baseboard", "panel_radiator", "cast_iron_radiator", "radiant_floor",
   "fan_coil", "towel_warmer"]

/-- Insert `v` into the neighbor set of `k` (JS `Set.add`: dedup, keep
insertion order). -/
def addNeighbor (m : List (String × List String)) (k v : String) :
    List (String × List String) :=
  let l := (getJ m k).getD []
  setJ m k (if l.contains v then l else l ++ [v])

/-- The undirected adjacency map built from the connection list. -/
def buildAdjacency (connections : List Connection) :
    List (String × List String) :=
  connections.foldl
    (fun adjacency conn =>
      let adjacency :=
        if hasJ adjacency conn.fromComponentId then adjacency
        else setJ adjacency conn.fromComponentId []
      let adjacency :=
        if hasJ adjacency conn.toComponentId then adjacency
        else setJ adjacency conn.toComponentId []
      let adjacency := addNeighbor adjacency conn.fromComponentId conn.toComponentId
      addNeighbor adjacency conn.toComponentId conn.fromComponentId)
    []

/-- The name-heuristic zone match of pass 2 (`name` is the component's
display name already lower-cased, as in the source). -/
def zoneNameMatches (name : String) (zone : Zone) : Bool :=
  let zoneName := lowerStr zone.name
  strIncludes name zone.id ||
  (strIncludes zoneName "floor 1" && (strIncludes name "1f" || strIncludes name "garage")) ||
  (strIncludes zoneName "floor 2" && (strIncludes name "2f" || strIncludes name "floor 2")) ||
  (strIncludes zoneName "floor 3" && (strIncludes name "3f" || strIncludes name "floor 3")) ||
  (strIncludes zoneName "garage" && strIncludes name "garage") ||
  strIncludes name (lowerStr ((zone.name.splitOn " ").headD ""))

/-- One iteration of pass 2 of `buildComponentZoneMap` (name heuristic,
zone-valve neighbor inheritance, emitter fallback). -/
def pass2Step (zones : List Zone) (adjacency : List (String × List String))
    (m : List (String × String)) (p : String × HydronicComponent) :
    List (String × String) :=
  if hasJ m p.1 then m
  else
    let name := lowerStr p.2.name
    let m1 :=
      match zones.find? (fun zone => zoneNameMatches name zone) with
      | some zone => setJ m p.1 zone.id
      | none => m
    let m2 :=
      if p.2.type == "zone_valve_2way" || p.2.type == "zone_valve_3way" then
        let neighbors := (getJ adjacency p.1).getD []
        match neighbors.findSome? (fun neighborId =>
          match getJ m1 neighborId with
          | some neighborZone =>
            if neighborZone != "" && neighborZone != "mechanical" then
              some neighborZone
            else none
          | none => none) with
        | some neighborZone => setJ m1 p.1 neighborZone
        | none => m1
      else m1
    if !(hasJ m2 p.1) && emitterTypesLayout.contains p.2.type then
      match zones with
      | [] => m2
      | z0 :: _ => setJ m2 p.1 z0.id
    else m2

/-- One iteration of pass 3 of `buildComponentZoneMap` (neighbor
inheritance, then the `"mechanical"` fallback). -/
def pass3Step (adjacency : List (String × List String))
    (m : List (String × String)) (p : String × HydronicComponent) :
    List (String × String) :=
  let m1 :=
    if !(hasJ m p.1) then
      let neighbors := (getJ adjacency p.1).getD []
      match neighbors.findSome? (fun neighborId =>
        match getJ m neighborId with
        | some neighborZone =>
          if neighborZone != "" then some neighborZone else none
        | none => none) with
      | some neighborZone => setJ m p.1 neighborZone
      | none => m
    else m
  if !(hasJ m1 p.1) then setJ m1 p.1 "mechanical" else m1

/-- `buildComponentZoneMap`: three deterministic passes. -/
def buildComponentZoneMap (components : List (String × HydronicComponent))
    (connections : List Connection) (zones : List Zone) :
    List (String × String) :=
  let pass1 := components.foldl
    (fun m p =>
      if mechanicalTypes.contains p.2.type then setJ m p.1 "mechanical" else m)
    []
  let adjacency := buildAdjacency connections
  let pass2 := components.foldl (pass2Step zones adjacency) pass1
  components.foldl (pass3Step adjacency) pass2

-- ─────────────────────────────────────────────────────────────────────────────
-- Layout solve (src/calc/autoLayout.ts, autoLayoutSystem)
-- ─────────────────────────────────────────────────────────────────────────────

/-- The fixed footprint table of `getComponentDimensions`. -/
def dimsTable : List (String × (ℚ × ℚ)) :=
  [("boiler_gas", (80, 60)), ("boiler_oil", (80, 60)),
   ("boiler_electric", (80, 60)), ("pump_fixed", (60, 60)),
   ("pump_variable", (60, 60)), ("zone_pump", (60, 60)),
   ("air_separator", (60, 60)), ("expansion_tank", (60, 70)),
   ("zone_valve_2way", (60, 60)), ("zone_valve_3way", (60, 60)),
   ("mixing_valve", (60, 60)), ("radiant_floor", (80, 70)),
   ("baseboard", (100, 60)), ("panel_radiator", (80, 60))]

/-- `getComponentDimensions` (baseboards size by length, clamped). -/
def getComponentDimensions (component : HydronicComponent) : ℚ × ℚ :=
  if component.type == "baseboard" then
    let length := component.props.lengthFt.getD 4
    (min 200 (max 60 (length * 15)), 60)
  else
    (getJ dimsTable component.type).getD (60, 60)

structure LayoutOptions where
  direction : String
  nodeSep : ℚ
  rankSep : ℚ
  edgeSep : ℚ
  gridSize : ℚ
  zonePadding : ℚ
  lockedComponentIds : Option (List String)
deriving DecidableEq, Repr

/-- `Partial<LayoutOptions>`: every field optionally overridden. -/
structure LayoutOptionsPartial where
  direction : Option String
  nodeSep : Option ℚ
  rankSep : Option ℚ
  edgeSep : Option ℚ
  gridSize : Option ℚ
  zonePadding : Option ℚ
  lockedComponentIds : Option (List String)
deriving DecidableEq, Repr

/-- `DEFAULT_OPTIONS`. -/
def defaultOptions : LayoutOptions := ⟨"LR", 80, 150, 30, 20, 40, none⟩

/-- The spread `{ ...DEFAULT_OPTIONS, ...options }`. -/
def mergeOptions (options : LayoutOptionsPartial) : LayoutOptions :=
  ⟨options.direction.getD defaultOptions.direction,
   options.nodeSep.getD defaultOptions.nodeSep,
   options.rankSep.getD defaultOptions.rankSep,
   options.edgeSep.getD defaultOptions.edgeSep,
   options.gridSize.getD defaultOptions.gridSize,
   options.zonePadding.getD defaultOptions.zonePadding,
   match options.lockedComponentIds with
   | some s => some s
   | none => defaultOptions.lockedComponentIds⟩

structure ZoneBounds where
  zoneId : String
  zoneName : String
  x : ℚ
  y : ℚ
  width : ℚ
  height : ℚ
  color : String
deriving DecidableEq, Repr

/-- `ZONE_COLORS`. -/
def zoneColors : List String :=
  ["rgba(66, 133, 244, 0.15)", "rgba(52, 168, 83, 0.15)",
   "rgba(251, 188, 4, 0.15)", "rgba(234, 67, 53, 0.15)",
   "rgba(154, 66, 244, 0.15)", "rgba(244, 66, 179, 0.15)"]

/-- The min/max sweep of `calculateZoneBounds` over one zone's component
ids.  `none` models the untouched `minX === Infinity` sentinel state. -/
def boundsAccum (components : List (String × HydronicComponent))
    (positions : List (String × Position)) (compIds : List String) :
    Option (ℚ × ℚ × ℚ × ℚ) :=
  compIds.foldl
    (fun acc compId =>
      match getJ positions compId, getJ components compId with
      | some pos, some comp =>
        let dims := getComponentDimensions comp
        match acc with
        | none => some (pos.x, pos.y, pos.x + dims.1, pos.y + dims.2)
        | some (minX, minY, maxX, maxY) =>
          some (min minX pos.x, min minY pos.y,
                max maxX (pos.x + dims.1), max maxY (pos.y + dims.2))
      | _, _ => acc)
    none

/-- `calculateZoneBounds`. -/
def calculateZoneBounds (components : List (String × HydronicComponent))
    (positions : List (String × Position))
    (componentZoneMap : List (String × String)) (zones : List Zone)
    (padding : ℚ) : List ZoneBounds :=
  let zoneComponents := componentZoneMap.foldl
    (fun zc p => setJ zc p.2 (((getJ zc p.2).getD []) ++ [p.1])) []
  let zoneRes := zones.foldl
    (fun (acc : List ZoneBounds × ℕ) zone =>
      let compIds := (getJ zoneComponents zone.id).getD []
      if compIds.length = 0 then acc
      else
        match boundsAccum components positions compIds with
        | some (minX, minY, maxX, maxY) =>
          (acc.1 ++ [⟨zone.id, zone.name, minX - padding, minY - padding,
                      maxX - minX + padding * 2, maxY - minY + padding * 2,
                      zoneColors.getD (acc.2 % zoneColors.length) ""⟩],
           acc.2 + 1)
        | none => acc)
    ([], 0)
  let mechCompIds := (getJ zoneComponents "mechanical").getD []
  if 0 < mechCompIds.length then
    match boundsAccum components positions mechCompIds with
    | some (minX, minY, maxX, maxY) =>
      zoneRes.1 ++ [⟨"mechanical", "Mechanical Room", minX - padding,
                     minY - padding, maxX - minX + padding * 2,
                     maxY - minY + padding * 2, "rgba(100, 100, 100, 0.12)"⟩]
    | none => zoneRes.1
  else zoneRes.1

structure LayoutResult where
  componentPositions : List (String × Position)
  zoneBounds : List ZoneBounds
deriving DecidableEq, Repr

/-- `autoLayoutSystem`.  Graph construction and `dagre.layout` call into the
external dagre library; the post-layout node lookup `g.node(id)` is the
parameter `dagreNode` (center coordinates, `none` when dagre has no node).
The position extraction, grid snapping and locked-component handling that
follow the dagre call in the source are embedded faithfully. -/
def autoLayoutSystem (dagreNode : String → Option Position)
    (components : List (String × HydronicComponent)) (_pipes : List String)
    (connections : List Connection) (zones : List Zone)
    (options : LayoutOptionsPartial) : LayoutResult :=
  let opts := mergeOptions options
  let lockedIds := opts.lockedComponentIds.getD []
  let componentZoneMap := buildComponentZoneMap components connections zones
  let componentPositions := components.foldl
    (fun m p =>
      if lockedIds.contains p.1 then setJ m p.1 p.2.position
      else
        match dagreNode p.1 with
        | some node =>
          let dims := getComponentDimensions p.2
          let x := jround ((node.x - dims.1 / 2) / opts.gridSize) * opts.gridSize
          let y := jround ((node.y - dims.2 / 2) / opts.gridSize) * opts.gridSize
          setJ m p.1 ⟨x, y⟩
        | none => setJ m p.1 p.2.position)
    []
  let zoneBounds := calculateZoneBounds components componentPositions
    componentZoneMap zones opts.zonePadding
  ⟨componentPositions, zoneBounds⟩

-- ─────────────────────────────────────────────────────────────────────────────
-- Orthogonal pipe routing (src/calc/autoLayout.ts)
-- ─────────────────────────────────────────────────────────────────────────────

/-- `generateSmartOrthogonalPath`: header-style 4-point orthogonal routing.
`Math.abs(dx) >= Math.abs(dy)` is `|dy| ≤ |dx|`.  Note: at `gridSize = 0`
the JS source computes `Math.round(v / 0) * 0 = NaN` midpoints, while this
rational reading totalizes the division (`v / 0 = 0`); theorems about this
function therefore assume a positive grid size, as the source's callers
always supply (default 20). -/
def generateSmartOrthogonalPath (fromPos toPos : Position) (pipeType : String)
    (gridSize : ℚ) : List Position :=
  let dx := toPos.x - fromPos.x
  let dy := toPos.y - fromPos.y
  let snap := fun (v : ℚ) => jround (v / gridSize) * gridSize
  if pipeType == "supply" then
    if |dy| ≤ |dx| then
      let midX := snap (fromPos.x + dx / 2)
      [⟨fromPos.x, fromPos.y⟩, ⟨midX, fromPos.y⟩, ⟨midX, toPos.y⟩,
       ⟨toPos.x, toPos.y⟩]
    else
      let midY := snap (fromPos.y + dy / 2)
      [⟨fromPos.x, fromPos.y⟩, ⟨fromPos.x, midY⟩, ⟨toPos.x, midY⟩,
       ⟨toPos.x, toPos.y⟩]
  else
    let headerY := snap (max fromPos.y toPos.y + 60)
    [⟨fromPos.x, fromPos.y⟩, ⟨fromPos.x, headerY⟩, ⟨toPos.x, headerY⟩,
     ⟨toPos.x, toPos.y⟩]

-- ─────────────────────────────────────────────────────────────────────────────
-- Thermal simulation engine (src/calc/simulation.ts)
-- ─────────────────────────────────────────────────────────────────────────────

structure ZoneDemand where
  zoneId : String
  zoneName : String
  sqFt : ℚ
  designHeatLoss : ℚ
  currentHeatLoss : ℚ
  isCalling : Bool
  zoneValveId : Option String
  designWaterTemp : ℚ
  emitterType : Option String
deriving DecidableEq, Repr

structure BoilerState where
  firingRate : ℚ
  outputBtu : ℚ
  supplyTemp : ℚ
  returnTemp : ℚ
  flowGpm : ℚ
  status : String
deriving DecidableEq, Repr

structure ZoneFlow where
  zoneId : String
  flowGpm : ℚ
  supplyTemp : ℚ
  returnTemp : ℚ
  btuDelivered : ℚ
deriving DecidableEq, Repr

/-- JS `expr || default` on a possibly-undefined number: both `undefined`
and `0` are falsy. -/
def jsNumOr (o : Option ℚ) (d : ℚ) : ℚ :=
  match o with
  | some v => if v = 0 then d else v
  | none => d

/-- JS `expr || null` on a possibly-undefined string: `undefined` and `""`
are falsy. -/
def jsStrOrNull (o : Option String) : Option String :=
  match o with
  | some s => if s == "" then none else some s
  | none => none

/-- `scaleHeatLossToOutdoorTemp`. -/
def scaleHeatLossToOutdoorTemp (designLoss indoorTemp outdoorTemp
    designOutdoorTemp : ℚ) : ℚ :=
  let designDeltaT := indoorTemp - designOutdoorTemp
  if designDeltaT ≤ 0 then 0
  else
    let currentDeltaT := indoorTemp - outdoorTemp
    if currentDeltaT ≤ 0 then 0
    else designLoss * (currentDeltaT / designDeltaT)

/-- `calculateZoneDemands`. -/
def calculateZoneDemands (sq : ℚ → ℚ) (building : BuildingConfig)
    (zones : List Zone) (components : List (String × HydronicComponent))
    (connections : List Connection) (outdoorTemp : ℚ) : List ZoneDemand :=
  if zones.length = 0 then []
  else
    let designHeatLoss := calculateHeatLoss sq building
    let zoneAllocations :=
      allocateZoneHeatLoss designHeatLoss.total building.totalSqFt zones
    let componentZoneMap := buildComponentZoneMap components connections zones
    let zoneToValve := componentZoneMap.foldl
      (fun zv p =>
        match getJ components p.1 with
        | some comp =>
          if comp.type == "zone_valve_2way" || comp.type == "zone_valve_3way"
          then setJ zv p.2 p.1
          else zv
        | none => zv)
      []
    zones.map (fun zone =>
      let designLoss := jsNumOr (getJ zoneAllocations zone.id) 0
      let currentLoss := scaleHeatLossToOutdoorTemp designLoss
        building.climate.indoorDesignTemp outdoorTemp
        building.climate.designOutdoorTemp
      ⟨zone.id, zone.name, zone.sqFt, designLoss, currentLoss,
       decide (0 < currentLoss), jsStrOrNull (getJ zoneToValve zone.id),
       zone.designWaterTemp, zone.emitterType⟩)

/-- `calculateBoilerState`. -/
def calculateBoilerState (boilerComp : HydronicComponent)
    (totalDemandBtu : ℚ) (anyZoneCalling : Bool) : BoilerState :=
  let props := boilerComp.props
  let maxOutputBtu := props.inputBtu * props.afue
  if anyZoneCalling = false ∨ totalDemandBtu ≤ 0 then
    ⟨0, 0, 70, 70, 0, "off"⟩
  else
    let firingRate0 := totalDemandBtu / maxOutputBtu
    let firingRate :=
      if firingRate0 < props.minFiringRate then props.minFiringRate
      else if 1 < firingRate0 then 1
      else firingRate0
    let outputBtu := maxOutputBtu * firingRate
    let baseSupplyTemp : ℚ := 140
    let maxSupplyTemp := min props.maxSupplyTemp 180
    let supplyTemp := baseSupplyTemp + (maxSupplyTemp - baseSupplyTemp) * firingRate
    let dT : ℚ := 20
    let returnTemp := supplyTemp - dT
    let flowGpm := requiredGPM outputBtu dT
    ⟨firingRate, outputBtu, jround supplyTemp, jround returnTemp,
     jround (flowGpm * 10) / 10, "firing"⟩

/-- `calculateZoneFlows`. -/
def calculateZoneFlows (zoneDemands : List ZoneDemand)
    (boilerState : BoilerState) : List ZoneFlow :=
  let activeZones := zoneDemands.filter (fun z => z.isCalling)
  if activeZones.length = 0 ∨ boilerState.flowGpm ≤ 0 then
    zoneDemands.map (fun z => ⟨z.zoneId, 0, 70, 70, 0⟩)
  else
    let totalDemand : ℚ := activeZones.foldl (fun sum z => sum + z.currentHeatLoss) 0
    zoneDemands.map (fun zone =>
      if zone.isCalling = false ∨ totalDemand ≤ 0 then (⟨zone.zoneId, 0, 70, 70, 0⟩ : ZoneFlow)
      else
        let demandShare := zone.currentHeatLoss / totalDemand
        let flowGpm := boilerState.flowGpm * demandShare
        let supplyTemp :=
          if zone.emitterType == some "radiant_floor" then
            min zone.designWaterTemp 120
          else boilerState.supplyTemp
        let dT := if 0 < flowGpm then zone.currentHeatLoss / (500 * flowGpm) else 0
        let returnTemp := supplyTemp - min dT 30
        ⟨zone.zoneId, jround (flowGpm * 10) / 10, jround supplyTemp,
         jround returnTemp, zone.currentHeatLoss⟩)

/-- `calculateEmitterState`. -/
def calculateEmitterState (zoneFlow : Option ZoneFlow) (emittersInZone : ℚ) :
    ComponentSimState :=
  match zoneFlow with
  | none => ⟨70, 70, 0, "off"⟩
  | some zf =>
    if zf.flowGpm ≤ 0 then ⟨70, 70, 0, "off"⟩
    else
      let flowGpm := zf.flowGpm / max 1 emittersInZone
      ⟨zf.supplyTemp, zf.returnTemp, jround (flowGpm * 10) / 10, "running"⟩

/-- `EMITTER_TYPES` (simulation module). -/
def emitterTypesSim : List String :=
  ["baseboard", "panel_radiator", "cast_iron_radiator", "radiant_floor",
   "fan_coil", "towel_warmer"]

/-- `BOILER_TYPES`. -/
def boilerTypes : List String := ["boiler_gas", "boiler_oil", "boiler_electric"]

/-- `PUMP_TYPES`. -/
def pumpTypes : List String := ["pump_fixed", "pump_variable", "zone_pump"]

/-- `VALVE_TYPES`. -/
def valveTypes : List String := ["zone_valve_2way", "zone_valve_3way"]

/-- The default all-off snapshot `{70, 70, 0, off}`. -/
def offState : ComponentSimState := ⟨70, 70, 0, "off"⟩

/-- Step 8 of `runSimulationTick`: one iteration of the full component
sweep.  Note: the source's `zoneId ? zoneFlowMap.get(zoneId) : null` is
modelled as a plain `Option` match; a zone id `""` would be falsy in JS but
is `some ""` here.  The divergence is reachable only with an empty-string
zone id, where the looked-up flow record carries the same supply/return/flow
values either way, so no theorem below depends on it. -/
def sweepStep (boilerId : String) (boilerState : BoilerState)
    (anyZoneCalling : Bool) (componentZoneMap : List (String × String))
    (zoneFlowMap : List (String × ZoneFlow))
    (zoneDemandMap : List (String × ZoneDemand))
    (emittersPerZone : List (String × ℚ))
    (states : List (String × ComponentSimState))
    (p : String × HydronicComponent) : List (String × ComponentSimState) :=
  if p.1 == boilerId then states
  else
    let zoneId := getJ componentZoneMap p.1
    let zoneFlow := match zoneId with
      | some z => getJ zoneFlowMap z
      | none => none
    let zoneDemand := match zoneId with
      | some z => getJ zoneDemandMap z
      | none => none
    if pumpTypes.contains p.2.type then
      setJ states p.1 ⟨boilerState.supplyTemp, boilerState.returnTemp,
        boilerState.flowGpm, if anyZoneCalling then "running" else "off"⟩
    else if valveTypes.contains p.2.type then
      let isValveOpen := match zoneDemand with
        | some zd => zd.isCalling
        | none => false
      setJ states p.1 ⟨jsNumOr (zoneFlow.map (fun zf => zf.supplyTemp)) 70,
        jsNumOr (zoneFlow.map (fun zf => zf.returnTemp)) 70,
        jsNumOr (zoneFlow.map (fun zf => zf.flowGpm)) 0,
        if isValveOpen then "running" else "off"⟩
    else if emitterTypesSim.contains p.2.type then
      let zkey := match zoneId with
        | some z => z
        | none => ""
      let emitterCount := jsNumOr (getJ emittersPerZone zkey) 1
      setJ states p.1 (calculateEmitterState zoneFlow emitterCount)
    else if p.2.type == "air_separator" || p.2.type == "expansion_tank" then
      setJ states p.1 ⟨boilerState.supplyTemp, boilerState.returnTemp, 0,
        if anyZoneCalling then "running" else "off"⟩
    else states

/-- `runSimulationTick`: the main per-tick pipeline. -/
def runSimulationTick (sq : ℚ → ℚ) (building : BuildingConfig)
    (zones : List Zone) (components : List (String × HydronicComponent))
    (connections : List Connection) (outdoorTemp : ℚ) :
    List (String × ComponentSimState) :=
  let componentStates := components.map (fun p => (p.1, offState))
  match components.find? (fun p => boilerTypes.contains p.2.type) with
  | none => componentStates
  | some (boilerId, boilerComp) =>
    let zoneDemands :=
      calculateZoneDemands sq building zones components connections outdoorTemp
    let totalDemand := zoneDemands.foldl (fun sum z => sum + z.currentHeatLoss) 0
    let anyZoneCalling := zoneDemands.any (fun z => z.isCalling)
    let boilerState := calculateBoilerState boilerComp totalDemand anyZoneCalling
    let componentStates := setJ componentStates boilerId
      ⟨boilerState.supplyTemp, boilerState.returnTemp, boilerState.flowGpm,
       boilerState.status⟩
    let zoneFlows := calculateZoneFlows zoneDemands boilerState
    let zoneFlowMap := zoneFlows.foldl (fun m zf => setJ m zf.zoneId zf) []
    let componentZoneMap := buildComponentZoneMap components connections zones
    let emittersPerZone := componentZoneMap.foldl
      (fun m p =>
        match getJ components p.1 with
        | some comp =>
          if emitterTypesSim.contains comp.type then
            setJ m p.2 ((jsNumOr (getJ m p.2) 0) + 1)
          else m
        | none => m)
      []
    let zoneDemandMap := zoneDemands.foldl (fun m zd => setJ m zd.zoneId zd) []
    components.foldl
      (sweepStep boilerId boilerState anyZoneCalling componentZoneMap
        zoneFlowMap zoneDemandMap emittersPerZone)
      componentStates

-- ─────────────────────────────────────────────────────────────────────────────
-- Concrete fixtures (mirroring the repository's test fixtures)
-- ─────────────────────────────────────────────────────────────────────────────

/-- A trivial model of `Math.sqrt` for concrete instantiations (the claims
proved about the pipeline hold for every `sq`). -/
def sqZero : ℚ → ℚ := fun _ => 0

/-- The `mockBuilding` fixture of the heat-loss tests. -/
def demoBuilding : BuildingConfig :=
  ⟨⟨-5, 70, 6000, 5⟩, 2000, 1, 8, "slab", ⟨13, 38, 19, 10⟩,
   ⟨200, 0.3, 2, 0.5, 20⟩, ⟨0.35, none⟩⟩

/-- A degenerate building with `floors = 0` (the unguarded
`totalSqFt / floors` divisor). -/
def zeroFloorsBuilding : BuildingConfig :=
  ⟨⟨-5, 70, 6000, 5⟩, 2000, 0, 8, "basement", ⟨13, 38, 19, 10⟩,
   ⟨200, 0.3, 2, 0.5, 20⟩, ⟨0.35, none⟩⟩

/-- A pump component fixture. -/
def pumpComp : HydronicComponent :=
  ⟨"pump_fixed", "Pump 1", ⟨100, 100⟩, 0, false, false, ⟨0, 0, 0, 0, none⟩⟩

/-- The `mockBoiler` fixture of the simulation tests. -/
def mockBoiler : HydronicComponent :=
  ⟨"boiler_gas", "Test Boiler", ⟨0, 0⟩, 0, false, false,
   ⟨150000, 0.95, 0.2, 180, none⟩⟩

/-- A single-zone fixture. -/
def zoneFixture : Zone := ⟨"z1", "Zone 1", 100, none, 110, none, 1⟩

-- ─────────────────────────────────────────────────────────────────────────────
-- Generic lemmas about the JS map model
-- ─────────────────────────────────────────────────────────────────────────────

theorem any_key_iff {α : Type} (m : List (String × α)) (k : String) :
    m.any (fun p => p.1 == k) = true ↔ k ∈ m.map Prod.fst := by
  simp [List.any_eq_true, List.mem_map, beq_iff_eq]

/-- Updating at an absent key is the identity on the underlying list. -/
theorem map_update_not_mem {α : Type} (m : List (String × α)) (k : String)
    (v : α) (h : k ∉ m.map Prod.fst) :
    m.map (fun p => if p.1 == k then (k, v) else p) = m := by
  induction m with
  | nil => rfl
  | cons q m ih =>
    have hq : q.1 ≠ k := fun hc => h (by simp [hc])
    have hk : k ∉ m.map Prod.fst := fun hc => h (by simp [hc])
    rw [List.map_cons, ih hk, if_neg (by simp [hq])]

theorem setJ_of_mem {α : Type} (m : List (String × α)) (k : String) (v : α)
    (h : k ∈ m.map Prod.fst) :
    setJ m k v = m.map (fun p => if p.1 == k then (k, v) else p) := by
  unfold setJ
  rw [if_pos ((any_key_iff m k).2 h)]

theorem setJ_of_not_mem {α : Type} (m : List (String × α)) (k : String) (v : α)
    (h : k ∉ m.map Prod.fst) : setJ m k v = m ++ [(k, v)] := by
  unfold setJ
  rw [if_neg]
  intro hc
  exact h ((any_key_iff m k).1 hc)

theorem setJ_map_fst {α : Type} (m : List (String × α)) (k : String) (v : α)
    (h : k ∈ m.map Prod.fst) :
    (setJ m k v).map Prod.fst = m.map Prod.fst := by
  rw [setJ_of_mem m k v h, List.map_map]
  apply List.map_congr_left
  intro p _
  by_cases hp : p.1 = k
  · simp [hp]
  · simp [hp]

theorem mem_keys_setJ {α : Type} {m : List (String × α)} {k k' : String}
    {v : α} (h : k ∈ m.map Prod.fst) : k ∈ (setJ m k' v).map Prod.fst := by
  by_cases hk : k' ∈ m.map Prod.fst
  · rwa [setJ_map_fst m k' v hk]
  · rw [setJ_of_not_mem m k' v hk, List.map_append]
    exact List.mem_append_left _ h

theorem self_mem_keys_setJ {α : Type} (m : List (String × α)) (k : String)
    (v : α) : k ∈ (setJ m k v).map Prod.fst := by
  by_cases hk : k ∈ m.map Prod.fst
  · rwa [setJ_map_fst m k v hk]
  · rw [setJ_of_not_mem m k v hk, List.map_append]
    exact List.mem_append_right _ (by simp)

theorem keys_setJ_sub {α : Type} {m : List (String × α)} {k k' : String}
    {v : α} (h : k ∈ (setJ m k' v).map Prod.fst) :
    k ∈ m.map Prod.fst ∨ k = k' := by
  by_cases hk : k' ∈ m.map Prod.fst
  · rw [setJ_map_fst m k' v hk] at h
    exact Or.inl h
  · rw [setJ_of_not_mem m k' v hk, List.map_append] at h
    rcases List.mem_append.1 h with h | h
    · exact Or.inl h
    · simp at h
      exact Or.inr h

theorem mem_setJ {α : Type} {m : List (String × α)} {k : String} {v : α}
    {p : String × α} (h : p ∈ setJ m k v) : p ∈ m ∨ p = (k, v) := by
  by_cases hk : k ∈ m.map Prod.fst
  · rw [setJ_of_mem m k v hk] at h
    rcases List.mem_map.1 h with ⟨q, hq, rfl⟩
    by_cases hqk : q.1 = k
    · simp [hqk]
    · simp [hqk]
      exact Or.inl hq
  · rw [setJ_of_not_mem m k v hk] at h
    rcases List.mem_append.1 h with h | h
    · exact Or.inl h
    · simp at h
      exact Or.inr h

theorem getJ_cons {α : Type} (q : String × α) (m : List (String × α))
    (k : String) :
    getJ (q :: m) k = if q.1 == k then some q.2 else getJ m k := by
  by_cases hq : (q.1 == k) = true
  · simp [getJ, List.find?, hq]
  · simp [getJ, List.find?, hq]

theorem getJ_eq_none_iff {α : Type} (m : List (String × α)) (k : String) :
    getJ m k = none ↔ k ∉ m.map Prod.fst := by
  induction m with
  | nil => simp [getJ]
  | cons q m ih =>
    rw [getJ_cons]
    by_cases hq : (q.1 == k) = true
    · simp only [beq_iff_eq] at hq
      simp [hq]
    · simp only [beq_iff_eq] at hq
      simp [hq, ih, Ne.symm hq]

theorem getJ_mem {α : Type} {m : List (String × α)} {k : String} {v : α}
    (h : getJ m k = some v) : (k, v) ∈ m := by
  induction m with
  | nil => simp [getJ] at h
  | cons q m ih =>
    rw [getJ_cons] at h
    by_cases hq : (q.1 == k) = true
    · rw [if_pos hq] at h
      simp only [beq_iff_eq] at hq
      have : q = (k, v) := by
        cases q
        simp_all
      simp [this]
    · rw [if_neg hq] at h
      exact List.mem_cons_of_mem _ (ih h)

theorem getJ_map_update_self {α : Type} (m : List (String × α)) (k : String)
    (v : α) (h : k ∈ m.map Prod.fst) :
    getJ (m.map (fun p => if p.1 == k then (k, v) else p)) k = some v := by
  induction m with
  | nil => simp at h
  | cons q m ih =>
    by_cases hq : (q.1 == k) = true
    · simp only [List.map_cons, if_pos hq]
      rw [getJ_cons]
      simp
    · simp only [List.map_cons, if_neg hq]
      rw [getJ_cons, if_neg hq]
      apply ih
      simp only [beq_iff_eq] at hq
      simp only [List.map_cons, List.mem_cons] at h
      rcases h with h | h
      · exact absurd h.symm hq
      · exact h

theorem getJ_setJ_self {α : Type} (m : List (String × α)) (k : String)
    (v : α) : getJ (setJ m k v) k = some v := by
  by_cases hk : k ∈ m.map Prod.fst
  · rw [setJ_of_mem m k v hk]
    exact getJ_map_update_self m k v hk
  · rw [setJ_of_not_mem m k v hk]
    induction m with
    | nil => simp [getJ, List.find?]
    | cons q m ih =>
      have hq : q.1 ≠ k := fun hc => hk (by simp [hc])
      have hk' : k ∉ m.map Prod.fst := fun hc => hk (by simp [hc])
      rw [List.cons_append, getJ_cons, if_neg (by simp [hq])]
      exact ih hk'

theorem getJ_setJ_ne {α : Type} (m : List (String × α)) (k k' : String)
    (v : α) (h : k ≠ k') : getJ (setJ m k' v) k = getJ m k := by
  by_cases hk : k' ∈ m.map Prod.fst
  · rw [setJ_of_mem m k' v hk]
    induction m with
    | nil => simp
    | cons q m ih =>
      by_cases hq : (q.1 == k') = true
      · simp only [List.map_cons, if_pos hq]
        simp only [beq_iff_eq] at hq
        rw [getJ_cons, getJ_cons]
        have h1 : ¬ ((k' : String) == k) = true := by
          simp [beq_iff_eq]
          exact fun hc => h hc.symm
        have h2 : ¬ (q.1 == k) = true := by
          simp [beq_iff_eq, hq]
          exact fun hc => h hc.symm
        rw [if_neg h1, if_neg h2]
        by_cases hk2 : k' ∈ m.map Prod.fst
        · exact ih hk2
        · rw [map_update_not_mem m k' v hk2]
      · simp only [List.map_cons, if_neg hq]
        rw [getJ_cons, getJ_cons]
        by_cases hqk : (q.1 == k) = true
        · rw [if_pos hqk, if_pos hqk]
        · rw [if_neg hqk, if_neg hqk]
          by_cases hk2 : k' ∈ m.map Prod.fst
          · exact ih hk2
          · rw [map_update_not_mem m k' v hk2]
  · rw [setJ_of_not_mem m k' v hk]
    induction m with
    | nil =>
      have hne : ¬ ((k' : String) == k) = true := by
        simp [beq_iff_eq]
        exact fun hc => h hc.symm
      simp only [List.nil_append]
      rw [getJ_cons, if_neg hne]
    | cons q m ih =>
      have hk' : k' ∉ m.map Prod.fst := fun hc => hk (by simp [hc])
      rw [List.cons_append, getJ_cons, getJ_cons]
      by_cases hqk : (q.1 == k) = true
      · rw [if_pos hqk, if_pos hqk]
      · rw [if_neg hqk, if_neg hqk]
        exact ih hk'

theorem setJ_keys_nodup {α : Type} (m : List (String × α)) (k : String)
    (v : α) (h : (m.map Prod.fst).Nodup) :
    ((setJ m k v).map Prod.fst).Nodup := by
  by_cases hk : k ∈ m.map Prod.fst
  · rwa [setJ_map_fst m k v hk]
  · rw [setJ_of_not_mem m k v hk, List.map_append]
    simp only [List.map_cons, List.map_nil]
    rw [List.nodup_append]
    exact ⟨h, List.nodup_singleton k, by simpa using fun hc => hk hc⟩

theorem getJ_of_forall_val {α : Type} {m : List (String × α)} {k : String}
    {v : α} (hall : ∀ p ∈ m, p.2 = v) (hk : k ∈ m.map Prod.fst) :
    getJ m k = some v := by
  induction m with
  | nil => simp at hk
  | cons q m ih =>
    rw [getJ_cons]
    by_cases hq : (q.1 == k) = true
    · rw [if_pos hq, hall q (List.mem_cons_self q m)]
    · rw [if_neg hq]
      apply ih
      · exact fun p hp => hall p (List.mem_cons_of_mem q hp)
      · simp only [beq_iff_eq] at hq
        simp only [List.map_cons, List.mem_cons] at hk
        rcases hk with hk | hk
        · exact absurd hk.symm hq
        · exact hk

/-- Rewriting a key to the value it already has (everywhere) is the
identity. -/
theorem setJ_const {α : Type} (m : List (String × α)) (k : String) (v : α)
    (hall : ∀ p ∈ m, p.2 = v) (hk : k ∈ m.map Prod.fst) :
    setJ m k v = m := by
  rw [setJ_of_mem m k v hk]
  have hpt : ∀ p ∈ m, (if (p.1 == k) = true then ((k, v) : String × α) else p) = id p := by
    intro p hp
    by_cases hpk : (p.1 == k) = true
    · rw [if_pos hpk]
      simp only [beq_iff_eq] at hpk
      simp only [id_eq]
      rw [← hpk, ← hall p hp]
    · rw [if_neg hpk, id_eq]
  rw [List.map_congr_left hpt, List.map_id]

/-- A fold invariant principle. -/
theorem foldl_inv {σ β : Type} (step : σ → β → σ) (Inv : σ → Prop)
    (l : List β) (init : σ) (hinit : Inv init)
    (hstep : ∀ s b, b ∈ l → Inv s → Inv (step s b)) :
    Inv (l.foldl step init) := by
  induction l generalizing init with
  | nil => exact hinit
  | cons b l ih =>
    exact ih (step init b) (hstep init b (List.mem_cons_self b l) hinit)
      (fun s b' hb' => hstep s b' (List.mem_cons_of_mem b hb'))

/-- Folding `setJ` over pairwise-distinct keys starting from the empty map
is just a `map`. -/
theorem foldl_setJ_eq_map {α γ : Type} (f : String × γ → α)
    (l : List (String × γ)) (acc : List (String × α))
    (hdisj : ∀ k ∈ l.map Prod.fst, k ∉ acc.map Prod.fst)
    (hnodup : (l.map Prod.fst).Nodup) :
    l.foldl (fun m p => setJ m p.1 (f p)) acc
      = acc ++ l.map (fun p => (p.1, f p)) := by
  induction l generalizing acc with
  | nil => simp
  | cons p l ih =>
    simp only [List.foldl_cons]
    rw [setJ_of_not_mem acc p.1 (f p)
      (hdisj p.1 (by simp))]
    rw [ih (acc ++ [(p.1, f p)])]
    · simp
    · intro k hk
      rw [List.map_append]
      intro hc
      rcases List.mem_append.1 hc with hc | hc
      · exact hdisj k (by simp [hk]) hc
      · simp at hc
        rw [List.map_cons, List.nodup_cons] at hnodup
        exact hnodup.1 (hc ▸ hk)
    · rw [List.map_cons, List.nodup_cons] at hnodup
      exact hnodup.2

theorem getJ_map_pairs {α γ : Type} (f : String × γ → α)
    (l : List (String × γ)) (k : String) (c : γ)
    (hnodup : (l.map Prod.fst).Nodup) (hmem : (k, c) ∈ l) :
    getJ (l.map (fun p => (p.1, f p))) k = some (f (k, c)) := by
  induction l with
  | nil => simp at hmem
  | cons q l ih =>
    rw [List.map_cons, getJ_cons]
    rw [List.map_cons, List.nodup_cons] at hnodup
    rcases List.mem_cons.1 hmem with hq | hq
    · rw [← hq]
      simp
    · have hqk : q.1 ≠ k := by
        intro hc
        exact hnodup.1 (hc ▸ List.mem_map_of_mem Prod.fst hq)
      rw [if_neg (by simp [hqk])]
      exact ih hnodup.2 hq

/-- Folding an addition of values that are all zero changes nothing. -/
theorem foldl_add_zero {β : Type} (g : β → ℚ) (l : List β) (a : ℚ)
    (h : ∀ b ∈ l, g b = 0) : l.foldl (fun s b => s + g b) a = a := by
  induction l generalizing a with
  | nil => rfl
  | cons b l ih =>
    simp only [List.foldl_cons, h b (List.mem_cons_self b l), add_zero]
    exact ih a (fun b' hb' => h b' (List.mem_cons_of_mem b hb'))

-- ─────────────────────────────────────────────────────────────────────────────
-- C6: scaleHeatLossToOutdoorTemp closed form and boundary examples
-- ─────────────────────────────────────────────────────────────────────────────

/-- C6: `scaleHeatLossToOutdoorTemp(designLoss, indoorTemp, outdoorTemp,
designOutdoorTemp)` equals `designLoss × (indoorTemp−outdoorTemp) /
(indoorTemp−designOutdoorTemp)`, except that it returns exactly 0 whenever
the current delta or the design delta is ≤ 0; in particular
`scaleHeatLossToOutdoorTemp(40000, 70, -5, -5) = 40000`,
`scaleHeatLossToOutdoorTemp(40000, 70, 75, -5) = 0`, and
`scaleHeatLossToOutdoorTemp(40000, 70, 70, 70) = 0`. -/
theorem scaleHeatLoss_closed_form :
    (∀ designLoss indoorTemp outdoorTemp designOutdoorTemp : ℚ,
      scaleHeatLossToOutdoorTemp designLoss indoorTemp outdoorTemp designOutdoorTemp =
        if indoorTemp - outdoorTemp ≤ 0 ∨ indoorTemp - designOutdoorTemp ≤ 0 then 0
        else designLoss *
          ((indoorTemp - outdoorTemp) / (indoorTemp - designOutdoorTemp))) ∧
    scaleHeatLossToOutdoorTemp 40000 70 (-5) (-5) = 40000 ∧
    scaleHeatLossToOutdoorTemp 40000 70 75 (-5) = 0 ∧
    scaleHeatLossToOutdoorTemp 40000 70 70 70 = 0 := by
  refine ⟨?_, ?_, ?_, ?_⟩
  · intro designLoss indoorTemp outdoorTemp designOutdoorTemp
    simp only [scaleHeatLossToOutdoorTemp]
    by_cases h1 : indoorTemp - designOutdoorTemp ≤ 0
    · rw [if_pos h1, if_pos (Or.inr h1)]
    · rw [if_neg h1]
      by_cases h2 : indoorTemp - outdoorTemp ≤ 0
      · rw [if_pos h2, if_pos (Or.inl h2)]
      · rw [if_neg h2, if_neg (by tauto)]
  · norm_num [scaleHeatLossToOutdoorTemp]
  · norm_num [scaleHeatLossToOutdoorTemp]
  · norm_num [scaleHeatLossToOutdoorTemp]

-- ─────────────────────────────────────────────────────────────────────────────
-- C8: velocityWarning buckets and boundary examples
-- ─────────────────────────────────────────────────────────────────────────────

/-- C8: `velocityWarning` returns `"low"` iff `v = 0.408·gpm/id² < 1.5`,
`"high"` iff `v > 4`, otherwise `"ok"` (both boundary values 1.5 and 4 are
`"ok"`), and on copper 3/4" (id 0.785): gpm 2.2 ↦ low, 2.4 ↦ ok, 6 ↦ ok,
6.2 ↦ high. -/
theorem velocityWarning_buckets :
    (∀ (gpm : ℚ) (material : PipeMaterial) (size : PipeSize),
      (velocityWarning gpm material size = "low" ↔
        velocity gpm (pipeID material size) < 1.5) ∧
      (velocityWarning gpm material size = "high" ↔
        4 < velocity gpm (pipeID material size)) ∧
      (velocityWarning gpm material size = "ok" ↔
        1.5 ≤ velocity gpm (pipeID material size) ∧
        velocity gpm (pipeID material size) ≤ 4)) ∧
    velocityWarning 2.2 .copper .s34 = "low" ∧
    velocityWarning 2.4 .copper .s34 = "ok" ∧
    velocityWarning 6 .copper .s34 = "ok" ∧
    velocityWarning 6.2 .copper .s34 = "high" := by
  refine ⟨?_, ?_, ?_, ?_, ?_⟩
  · intro gpm material size
    simp only [velocityWarning]
    split_ifs with h1 h2
    · refine ⟨⟨fun _ => h1, fun _ => rfl⟩, ⟨?_, ?_⟩, ⟨?_, ?_⟩⟩
      · intro hc
        exact absurd hc (by decide)
      · intro hc
        exfalso
        linarith
      · intro hc
        exact absurd hc (by decide)
      · intro hc
        exfalso
        linarith [hc.1]
    · refine ⟨⟨?_, ?_⟩, ⟨fun _ => h2, fun _ => rfl⟩, ⟨?_, ?_⟩⟩
      · intro hc
        exact absurd hc (by decide)
      · intro hc
        exact absurd hc h1
      · intro hc
        exact absurd hc (by decide)
      · intro hc
        exfalso
        linarith [hc.2]
    · refine ⟨⟨?_, ?_⟩, ⟨?_, ?_⟩, ⟨fun _ => ⟨by linarith, by linarith⟩, fun _ => rfl⟩⟩
      · intro hc
        exact absurd hc (by decide)
      · intro hc
        exact absurd hc h1
      · intro hc
        exact absurd hc (by decide)
      · intro hc
        exact absurd hc h2
  · norm_num [velocityWarning, velocity, pipeID]
  · norm_num [velocityWarning, velocity, pipeID]
  · norm_num [velocityWarning, velocity, pipeID]
  · norm_num [velocityWarning, velocity, pipeID]

-- ─────────────────────────────────────────────────────────────────────────────
-- C1: orthogonality of generated pipe paths
-- ─────────────────────────────────────────────────────────────────────────────

theorem degenerate_path_eval :
    generateSmartOrthogonalPath ⟨0, 0⟩ ⟨0, 0⟩ "supply" 20 =
      [⟨0, 0⟩, ⟨0, 0⟩, ⟨0, 0⟩, ⟨0, 0⟩] := by
  simp only [generateSmartOrthogonalPath]
  norm_num [jround]

/-- C1 counterexample: on same-point input the routing returns four
coincident waypoints — not a minimal 2-point path — and consecutive pairs
differ in no axis at all, refuting the claim's "exactly one axis" reading. -/
theorem routing_degenerate_cex :
    (generateSmartOrthogonalPath ⟨0, 0⟩ ⟨0, 0⟩ "supply" 20).length ≠ 2 ∧
    ¬ List.Chain'
        (fun p q : Position => (p.x = q.x ∧ p.y ≠ q.y) ∨ (p.x ≠ q.x ∧ p.y = q.y))
        (generateSmartOrthogonalPath ⟨0, 0⟩ ⟨0, 0⟩ "supply" 20) := by
  rw [degenerate_path_eval]
  refine ⟨by simp, ?_⟩
  intro hc
  rw [List.chain'_cons] at hc
  rcases hc.1 with h | h
  · exact h.2 rfl
  · exact h.1 rfl

/-- C1 (amended): for every pair of port positions, every pipe role and
every positive grid size, `generateSmartOrthogonalPath` returns exactly 4
waypoints and every consecutive waypoint pair shares at least one
coordinate — each segment is horizontal, vertical, or degenerate.
(Same-point input yields 4 coincident waypoints, not a 2-point path.) -/
theorem routing_axis_aligned (fromPos toPos : Position) (pipeType : String)
    (gridSize : ℚ) (hgrid : 0 < gridSize) :
    (generateSmartOrthogonalPath fromPos toPos pipeType gridSize).length = 4 ∧
    List.Chain' (fun p q : Position => p.x = q.x ∨ p.y = q.y)
      (generateSmartOrthogonalPath fromPos toPos pipeType gridSize) := by
  simp only [generateSmartOrthogonalPath]
  split_ifs <;> simp [List.chain'_cons]

/-- C1 amended-claim witness: a concrete route on the default grid size 20,
which is positive. -/
theorem routing_axis_aligned_witness :
    (0 : ℚ) < 20 ∧
    ((generateSmartOrthogonalPath ⟨0, 0⟩ ⟨10, 5⟩ "supply" 20).length = 4 ∧
      List.Chain' (fun p q : Position => p.x = q.x ∨ p.y = q.y)
        (generateSmartOrthogonalPath ⟨0, 0⟩ ⟨10, 5⟩ "supply" 20)) :=
  ⟨by norm_num,
   routing_axis_aligned ⟨0, 0⟩ ⟨10, 5⟩ "supply" 20 (by norm_num)⟩

-- ─────────────────────────────────────────────────────────────────────────────
-- C2: division guards and JS non-finite values
-- ─────────────────────────────────────────────────────────────────────────────

/-- C2 counterexample: `allocateZoneHeatLoss` does not short-circuit a zero
total square footage — a zone with positive area and no override is
allocated `(100 / 0) × 1000 = +Infinity`, refuting "never returns NaN or
Infinity". -/
theorem allocate_unguarded_cex :
    getJ (allocateZoneHeatLossN 1000 0 [⟨"z1", "Zone 1", 100, none, 110, none, 1⟩])
        "z1" = some JNum.posInf ∧
    JNum.posInf.isFinite = false := by
  constructor
  · simp only [allocateZoneHeatLossN, List.foldl_cons, List.foldl_nil]
    norm_num [jdiv, jmul, setJ, getJ, List.find?]
  · rfl

/-- C2 (amended): the guarded formulas — `rToU`, `velocity`,
`frictionLossPer100Ft`, `requiredGPM` and the delta-T ratio of
`calculateZoneFlows` — short-circuit degenerate denominators and return
finite values for all finite inputs; but `estimateWallArea` does not guard
`floors = 0` (it returns NaN) and `allocateZoneHeatLoss` does not guard
`totalSqFt = 0` (it returns +Infinity for a zone with positive area, no
override and positive total loss). -/
theorem division_guards_amended :
    (∀ r : ℚ, (rToUN r).isFinite = true) ∧
    (∀ gpm id : ℚ, (velocityN gpm id).isFinite = true) ∧
    (∀ btu dT : ℚ, (requiredGPMN btu dT).isFinite = true) ∧
    (∀ currentHeatLoss flowGpm : ℚ,
      (zoneFlowDeltaTN currentHeatLoss flowGpm).isFinite = true) ∧
    (∀ pw : ℚ → ℚ → JNum,
      (∀ b e : ℚ, 0 < b → ∃ q : ℚ, 0 < q ∧ pw b e = .fin q) →
      ∀ (gpm : ℚ) (material : PipeMaterial) (size : PipeSize),
        (frictionLossPer100FtN pw gpm material size).isFinite = true) ∧
    (∀ sq : JNum → JNum, sq .posInf = .posInf →
      estimateWallAreaN sq zeroFloorsBuilding = .nan) ∧
    getJ (allocateZoneHeatLossN 1000 0 [⟨"z1", "Zone 1", 100, none, 110, none, 1⟩])
        "z1" = some JNum.posInf := by
  refine ⟨?_, ?_, ?_, ?_, ?_, ?_, ?_⟩
  · intro r
    unfold rToUN
    by_cases h : 0 < r
    · rw [if_pos h]
      simp [jdiv, ne_of_gt h, JNum.isFinite]
    · rw [if_neg h]
      rfl
  · intro gpm id
    unfold velocityN
    by_cases h : id ≤ 0
    · rw [if_pos h]
      rfl
    · rw [if_neg h]
      push_neg at h
      have hne : id * id ≠ 0 := by positivity
      simp [jdiv, jmul, hne, JNum.isFinite]
  · intro btu dT
    unfold requiredGPMN
    by_cases h : dT ≤ 0
    · rw [if_pos h]
      rfl
    · rw [if_neg h]
      push_neg at h
      have hne : (500 : ℚ) * dT ≠ 0 := by positivity
      simp [jdiv, jmul, hne, JNum.isFinite]
  · intro currentHeatLoss flowGpm
    unfold zoneFlowDeltaTN
    by_cases h : 0 < flowGpm
    · rw [if_pos h]
      have hne : (500 : ℚ) * flowGpm ≠ 0 := by positivity
      simp [jdiv, jmul, hne, JNum.isFinite]
    · rw [if_neg h]
      rfl
  · intro pw hpw gpm material size
    unfold frictionLossPer100FtN
    by_cases h : pipeID material size ≤ 0 ∨ gpm ≤ 0
    · rw [if_pos h]
      rfl
    · rw [if_neg h]
      push_neg at h
      obtain ⟨q1, hq1, he1⟩ := hpw (100 / cFactor material) 1.852 (by
        cases material <;> norm_num [cFactor])
      obtain ⟨q2, hq2, he2⟩ := hpw gpm 1.852 h.2
      obtain ⟨q3, hq3, he3⟩ := hpw (pipeID material size) 4.8655 h.1
      rw [he1, he2, he3]
      simp [jdiv, jmul, ne_of_gt hq3, JNum.isFinite]
  · intro sq hsq
    have h1 : jdiv (.fin zeroFloorsBuilding.totalSqFt) (.fin zeroFloorsBuilding.floors)
        = JNum.posInf := by
      norm_num [jdiv, zeroFloorsBuilding]
    simp only [estimateWallAreaN]
    rw [h1, hsq]
    norm_num [jmul, jsub, jmax, zeroFloorsBuilding]
  · simp only [allocateZoneHeatLossN, List.foldl_cons, List.foldl_nil]
    norm_num [jdiv, jmul, setJ, getJ, List.find?]

/-- C2 amended-claim witness: the hypotheses of the amended theorem are
satisfiable — a concrete positive-valued power model and the identity model
of `Math.sqrt` discharge them. -/
theorem division_guards_amended_witness :
    (frictionLossPer100FtN (fun _ _ => JNum.fin 1) 5 .copper .s34).isFinite = true ∧
    estimateWallAreaN (fun j => j) zeroFloorsBuilding = .nan :=
  ⟨division_guards_amended.2.2.2.2.1 (fun _ _ => JNum.fin 1)
      (fun _ _ _ => ⟨1, by norm_num, rfl⟩) 5 .copper .s34,
   division_guards_amended.2.2.2.2.2.1 (fun j => j) rfl⟩

-- ─────────────────────────────────────────────────────────────────────────────
-- C5: boiler firing rate — monotone, clamped, off at zero demand
-- ─────────────────────────────────────────────────────────────────────────────

theorem calculateBoilerState_nonpos (c : HydronicComponent) (d : ℚ)
    (a : Bool) (hd : d ≤ 0) :
    calculateBoilerState c d a = ⟨0, 0, 70, 70, 0, "off"⟩ := by
  simp only [calculateBoilerState]
  rw [if_pos (Or.inr hd)]

theorem firingRate_of_pos (c : HydronicComponent) (d : ℚ) (hd : 0 < d) :
    (calculateBoilerState c d true).firingRate =
      if d / (c.props.inputBtu * c.props.afue) < c.props.minFiringRate then
        c.props.minFiringRate
      else if 1 < d / (c.props.inputBtu * c.props.afue) then 1
      else d / (c.props.inputBtu * c.props.afue) := by
  simp only [calculateBoilerState]
  rw [if_neg (by
    intro hc
    rcases hc with hc | hc
    · simp at hc
    · linarith)]

/-- C5: with a calling zone, the boiler firing rate is monotonically
non-decreasing in total demand; for positive demand it lies in
`[minFiringRate, 1]` (sub-minimum demand still runs at the minimum, excess
demand clamps to 1); and at zero demand the boiler is off with 70° ambient
temps and zero flow.  (Stated for a boiler with a modulation range
`0 ≤ minFiringRate ≤ 1` and positive maximum output `inputBtu × afue`.) -/
theorem boilerState_monotone_clamped (boilerComp : HydronicComponent)
    (hmin0 : 0 ≤ boilerComp.props.minFiringRate)
    (hmin1 : boilerComp.props.minFiringRate ≤ 1)
    (hmax : 0 < boilerComp.props.inputBtu * boilerComp.props.afue) :
    (∀ d1 d2 : ℚ, d1 ≤ d2 →
      (calculateBoilerState boilerComp d1 true).firingRate ≤
        (calculateBoilerState boilerComp d2 true).firingRate) ∧
    (∀ d : ℚ, 0 < d →
      boilerComp.props.minFiringRate ≤
        (calculateBoilerState boilerComp d true).firingRate ∧
      (calculateBoilerState boilerComp d true).firingRate ≤ 1) ∧
    calculateBoilerState boilerComp 0 true = ⟨0, 0, 70, 70, 0, "off"⟩ := by
  have hrange : ∀ d : ℚ, 0 < d →
      boilerComp.props.minFiringRate ≤
        (calculateBoilerState boilerComp d true).firingRate ∧
      (calculateBoilerState boilerComp d true).firingRate ≤ 1 := by
    intro d hd
    rw [firingRate_of_pos boilerComp d hd]
    split_ifs with h1 h2
    · exact ⟨le_refl _, hmin1⟩
    · exact ⟨hmin1, le_refl _⟩
    · exact ⟨not_lt.1 h1, not_lt.1 h2⟩
  refine ⟨?_, hrange, calculateBoilerState_nonpos boilerComp 0 true le_rfl⟩
  intro d1 d2 h12
  by_cases hd1 : 0 < d1
  · have hd2 : 0 < d2 := lt_of_lt_of_le hd1 h12
    rw [firingRate_of_pos boilerComp d1 hd1, firingRate_of_pos boilerComp d2 hd2]
    have hx : d1 / (boilerComp.props.inputBtu * boilerComp.props.afue) ≤
        d2 / (boilerComp.props.inputBtu * boilerComp.props.afue) := by gcongr
    split_ifs <;> linarith
  · push_neg at hd1
    rw [calculateBoilerState_nonpos boilerComp d1 true hd1]
    by_cases hd2 : 0 < d2
    · have := hrange d2 hd2
      show (0 : ℚ) ≤ _
      linarith [this.1]
    · push_neg at hd2
      rw [calculateBoilerState_nonpos boilerComp d2 true hd2]

/-- C5 witness: the hypotheses hold for the test-suite boiler
(150000 BTU input, AFUE 0.95, minimum firing rate 0.2), at which zero
demand yields the off state and demand 50000 fires at or above the
minimum rate. -/
theorem boilerState_monotone_clamped_witness :
    calculateBoilerState mockBoiler 0 true = ⟨0, 0, 70, 70, 0, "off"⟩ ∧
    mockBoiler.props.minFiringRate ≤
      (calculateBoilerState mockBoiler 50000 true).firingRate :=
  ⟨(boilerState_monotone_clamped mockBoiler (by norm_num [mockBoiler])
      (by norm_num [mockBoiler]) (by norm_num [mockBoiler])).2.2,
   ((boilerState_monotone_clamped mockBoiler (by norm_num [mockBoiler])
      (by norm_num [mockBoiler]) (by norm_num [mockBoiler])).2.1 50000
      (by norm_num)).1⟩

-- ─────────────────────────────────────────────────────────────────────────────
-- C3: no boiler present ⇒ all-off map
-- ─────────────────────────────────────────────────────────────────────────────

/-- C3: when no component of a boiler type is present, `runSimulationTick`
returns the map assigning every component id the all-off state
(70°/70°, zero flow, status "off") — total, never partial. -/
theorem noBoiler_all_off (sq : ℚ → ℚ) (building : BuildingConfig)
    (zones : List Zone) (components : List (String × HydronicComponent))
    (connections : List Connection) (outdoorTemp : ℚ)
    (h : ∀ p ∈ components, boilerTypes.contains p.2.type = false) :
    runSimulationTick sq building zones components connections outdoorTemp =
      components.map (fun p => (p.1, offState)) := by
  simp only [runSimulationTick]
  have hn : components.find? (fun p => boilerTypes.contains p.2.type) = none := by
    rw [List.find?_eq_none]
    intro p hp
    simpa using h p hp
  rw [hn]

/-- C3 witness: a pump-only system at a concrete input. -/
theorem noBoiler_all_off_witness :
    (∀ p ∈ [("p1", pumpComp)], boilerTypes.contains p.2.type = false) ∧
    runSimulationTick sqZero demoBuilding [] [("p1", pumpComp)] [] 20 =
      [("p1", offState)] :=
  ⟨by decide,
   noBoiler_all_off sqZero demoBuilding [] [("p1", pumpComp)] [] 20 (by decide)⟩

-- ─────────────────────────────────────────────────────────────────────────────
-- C4: outdoor ≥ indoor ⇒ boiler and pumps off
-- ─────────────────────────────────────────────────────────────────────────────

theorem scaleHeatLoss_warm (designLoss indoorTemp outdoorTemp
    designOutdoorTemp : ℚ) (h : indoorTemp ≤ outdoorTemp) :
    scaleHeatLossToOutdoorTemp designLoss indoorTemp outdoorTemp
      designOutdoorTemp = 0 := by
  simp only [scaleHeatLossToOutdoorTemp]
  by_cases h1 : indoorTemp - designOutdoorTemp ≤ 0
  · rw [if_pos h1]
  · rw [if_neg h1, if_pos (by linarith)]

theorem zoneDemands_warm (sq : ℚ → ℚ) (building : BuildingConfig)
    (zones : List Zone) (components : List (String × HydronicComponent))
    (connections : List Connection) (outdoorTemp : ℚ)
    (h : building.climate.indoorDesignTemp ≤ outdoorTemp) :
    ∀ zd ∈ calculateZoneDemands sq building zones components connections
        outdoorTemp,
      zd.currentHeatLoss = 0 ∧ zd.isCalling = false := by
  intro zd hzd
  simp only [calculateZoneDemands] at hzd
  by_cases hz : zones.length = 0
  · rw [if_pos hz] at hzd
    simp at hzd
  · rw [if_neg hz] at hzd
    rcases List.mem_map.1 hzd with ⟨zone, _, rfl⟩
    refine ⟨scaleHeatLoss_warm _ _ _ _ h, ?_⟩
    simp only [scaleHeatLoss_warm _ _ _ _ h]
    simp

theorem zoneFlows_off (zoneDemands : List ZoneDemand) :
    calculateZoneFlows zoneDemands ⟨0, 0, 70, 70, 0, "off"⟩ =
      zoneDemands.map (fun z => ⟨z.zoneId, 0, 70, 70, 0⟩) := by
  simp only [calculateZoneFlows]
  rw [if_pos (Or.inr (le_refl 0))]


/-- Under an all-off boiler, no calling zone, all-zero zone flows and
all-off current states, one sweep step leaves the state map unchanged. -/
theorem sweepStep_all_off (boilerId : String)
    (componentZoneMap : List (String × String))
    (zoneFlowMap : List (String × ZoneFlow))
    (zoneDemandMap : List (String × ZoneDemand))
    (emittersPerZone : List (String × ℚ))
    (st : List (String × ComponentSimState)) (p : String × HydronicComponent)
    (hzfm : ∀ q ∈ zoneFlowMap,
      q.2.flowGpm = 0 ∧ q.2.supplyTemp = 70 ∧ q.2.returnTemp = 70)
    (hzdm : ∀ q ∈ zoneDemandMap, q.2.isCalling = false)
    (hst : ∀ q ∈ st, q.2 = offState)
    (hkey : p.1 ∈ st.map Prod.fst) :
    sweepStep boilerId ⟨0, 0, 70, 70, 0, "off"⟩ false componentZoneMap
      zoneFlowMap zoneDemandMap emittersPerZone st p = st := by
  simp only [sweepStep]
  by_cases hb : (p.1 == boilerId) = true
  · rw [if_pos hb]
  · rw [if_neg hb]
    have hflow : ∀ zf : ZoneFlow,
        (match getJ componentZoneMap p.1 with
          | some z => getJ zoneFlowMap z
          | none => none) = some zf →
        zf.flowGpm = 0 ∧ zf.supplyTemp = 70 ∧ zf.returnTemp = 70 := by
      cases hcz : getJ componentZoneMap p.1 with
      | none =>
        intro zf hzf
        simp at hzf
      | some z =>
        intro zf hzf
        simp only at hzf
        exact hzfm (z, zf) (getJ_mem hzf)
    have hdem : ∀ zd : ZoneDemand,
        (match getJ componentZoneMap p.1 with
          | some z => getJ zoneDemandMap z
          | none => none) = some zd → zd.isCalling = false := by
      cases hcz : getJ componentZoneMap p.1 with
      | none =>
        intro zd hzd
        simp at hzd
      | some z =>
        intro zd hzd
        simp only at hzd
        exact hzdm (z, zd) (getJ_mem hzd)
    by_cases hp : pumpTypes.contains p.2.type = true
    · rw [if_pos hp]
      exact setJ_const st p.1 _ hst hkey
    · rw [if_neg hp]
      by_cases hv : valveTypes.contains p.2.type = true
      · rw [if_pos hv]
        rcases hzf : (match getJ componentZoneMap p.1 with
            | some z => getJ zoneFlowMap z
            | none => none) with - | zf
        · rcases hzd : (match getJ componentZoneMap p.1 with
              | some z => getJ zoneDemandMap z
              | none => none) with - | zd
          · rw [hzf, hzd]
            exact setJ_const st p.1 _ hst hkey
          · rw [hzf, hzd]
            have hc := hdem zd hzd
            have hrec : (⟨jsNumOr ((none : Option ZoneFlow).map
                  (fun zf => zf.supplyTemp)) 70,
                jsNumOr ((none : Option ZoneFlow).map (fun zf => zf.returnTemp)) 70,
                jsNumOr ((none : Option ZoneFlow).map (fun zf => zf.flowGpm)) 0,
                if zd.isCalling then "running" else "off"⟩ : ComponentSimState)
                = offState := by
              simp [jsNumOr, hc, offState]
            rw [hrec]
            exact setJ_const st p.1 _ hst hkey
        · obtain ⟨hf, hs, hr⟩ := hflow zf hzf
          rcases hzd : (match getJ componentZoneMap p.1 with
              | some z => getJ zoneDemandMap z
              | none => none) with - | zd
          · rw [hzf, hzd]
            have hrec : (⟨jsNumOr ((some zf).map (fun zf => zf.supplyTemp)) 70,
                jsNumOr ((some zf).map (fun zf => zf.returnTemp)) 70,
                jsNumOr ((some zf).map (fun zf => zf.flowGpm)) 0,
                if (match (none : Option ZoneDemand) with
                  | some zd => zd.isCalling
                  | none => false) then "running" else "off"⟩ : ComponentSimState)
                = offState := by
              simp [jsNumOr, hf, hs, hr, offState]
            rw [hrec]
            exact setJ_const st p.1 _ hst hkey
          · rw [hzf, hzd]
            have hc := hdem zd hzd
            have hrec : (⟨jsNumOr ((some zf).map (fun zf => zf.supplyTemp)) 70,
                jsNumOr ((some zf).map (fun zf => zf.returnTemp)) 70,
                jsNumOr ((some zf).map (fun zf => zf.flowGpm)) 0,
                if zd.isCalling then "running" else "off"⟩ : ComponentSimState)
                = offState := by
              simp [jsNumOr, hf, hs, hr, hc, offState]
            rw [hrec]
            exact setJ_const st p.1 _ hst hkey
      · rw [if_neg hv]
        by_cases he : emitterTypesSim.contains p.2.type = true
        · rw [if_pos he]
          rcases hzf : (match getJ componentZoneMap p.1 with
              | some z => getJ zoneFlowMap z
              | none => none) with - | zf
          · rw [hzf]
            exact setJ_const st p.1 _ hst hkey
          · rw [hzf]
            obtain ⟨hf, _, _⟩ := hflow zf hzf
            have hrec : ∀ cnt : ℚ, calculateEmitterState (some zf) cnt = offState := by
              intro cnt
              simp [calculateEmitterState, hf, offState]
            rw [hrec]
            exact setJ_const st p.1 _ hst hkey
        · rw [if_neg he]
          by_cases ha : (p.2.type == "air_separator" || p.2.type == "expansion_tank") = true
          · rw [if_pos ha]
            exact setJ_const st p.1 _ hst hkey
          · rw [if_neg ha]

/-- When the outdoor temperature reaches the indoor design temperature,
every component state the tick produces is the all-off state. -/
theorem warm_all_off (sq : ℚ → ℚ) (building : BuildingConfig)
    (zones : List Zone) (components : List (String × HydronicComponent))
    (connections : List Connection) (outdoorTemp : ℚ)
    (h : building.climate.indoorDesignTemp ≤ outdoorTemp) :
    runSimulationTick sq building zones components connections outdoorTemp =
      components.map (fun p => (p.1, offState)) := by
  simp only [runSimulationTick]
  cases hfind : components.find? (fun p => boilerTypes.contains p.2.type) with
  | none => rfl
  | some pb =>
    obtain ⟨boilerId, boilerComp⟩ := pb
    dsimp only
    have hdemAll := zoneDemands_warm sq building zones components connections
      outdoorTemp h
    have hany : (calculateZoneDemands sq building zones components connections
        outdoorTemp).any (fun z => z.isCalling) = false := by
      rw [List.any_eq_false]
      intro zd hzd
      simp [(hdemAll zd hzd).2]
    have htot : (calculateZoneDemands sq building zones components connections
        outdoorTemp).foldl (fun sum z => sum + z.currentHeatLoss) 0 = 0 :=
      foldl_add_zero (fun z => z.currentHeatLoss) _ 0
        (fun zd hzd => (hdemAll zd hzd).1)
    rw [hany, htot, calculateBoilerState_nonpos boilerComp 0 false le_rfl,
      zoneFlows_off]
    have hbase : ∀ q ∈ components.map
        (fun p => (p.1, offState)), q.2 = offState := by
      intro q hq
      rcases List.mem_map.1 hq with ⟨p, _, rfl⟩
      rfl
    have hbkeys : (components.map (fun p => (p.1, offState))).map Prod.fst =
        components.map Prod.fst := by
      rw [List.map_map]
      rfl
    have hbmem : boilerId ∈
        (components.map (fun p => (p.1, offState))).map Prod.fst := by
      rw [hbkeys]
      exact List.mem_map_of_mem Prod.fst (List.mem_of_find?_eq_some hfind)
    have hsetJ : setJ (components.map (fun p => (p.1, offState))) boilerId
        (⟨(⟨0, 0, 70, 70, 0, "off"⟩ : BoilerState).supplyTemp,
          (⟨0, 0, 70, 70, 0, "off"⟩ : BoilerState).returnTemp,
          (⟨0, 0, 70, 70, 0, "off"⟩ : BoilerState).flowGpm,
          (⟨0, 0, 70, 70, 0, "off"⟩ : BoilerState).status⟩ : ComponentSimState)
        = components.map (fun p => (p.1, offState)) :=
      setJ_const _ _ _ hbase hbmem
    rw [hsetJ]
    have hzfm : ∀ q ∈ ((calculateZoneDemands sq building zones components
        connections outdoorTemp).map
          (fun z => (⟨z.zoneId, 0, 70, 70, 0⟩ : ZoneFlow))).foldl
        (fun m zf => setJ m zf.zoneId zf) [],
        q.2.flowGpm = 0 ∧ q.2.supplyTemp = 70 ∧ q.2.returnTemp = 70 := by
      apply foldl_inv _ (fun (m : List (String × ZoneFlow)) => ∀ q ∈ m,
        q.2.flowGpm = 0 ∧ q.2.supplyTemp = 70 ∧ q.2.returnTemp = 70)
      · intro q hq
        simp at hq
      · intro s zf hzf hs q hq
        rcases mem_setJ hq with hq | hq
        · exact hs q hq
        · rcases List.mem_map.1 hzf with ⟨zd, _, rfl⟩
          rw [hq]
          exact ⟨rfl, rfl, rfl⟩
    have hzdm : ∀ q ∈ (calculateZoneDemands sq building zones components
        connections outdoorTemp).foldl (fun m zd => setJ m zd.zoneId zd) [],
        q.2.isCalling = false := by
      apply foldl_inv _ (fun (m : List (String × ZoneDemand)) =>
        ∀ q ∈ m, q.2.isCalling = false)
      · intro q hq
        simp at hq
      · intro s zd hzd hs q hq
        rcases mem_setJ hq with hq | hq
        · exact hs q hq
        · rw [hq]
          exact (hdemAll zd hzd).2
    apply foldl_inv _ (fun (st : List (String × ComponentSimState)) =>
      st = components.map (fun p => (p.1, offState)))
    · rfl
    · intro s p hp hs
      rw [hs]
      apply sweepStep_all_off _ _ _ _ _ _ _ hzfm hzdm hbase
      rw [hbkeys]
      exact List.mem_map_of_mem Prod.fst hp

/-- C4: whenever `outdoorTemp ≥ building.climate.indoorDesignTemp`, no
zone's scaled heat loss is positive, so `runSimulationTick` reports status
"off" for every boiler-type component and every pump-type component
(`pump_fixed`, `pump_variable`, `zone_pump`). -/
theorem warm_boiler_pumps_off (sq : ℚ → ℚ) (building : BuildingConfig)
    (zones : List Zone) (components : List (String × HydronicComponent))
    (connections : List Connection) (outdoorTemp : ℚ)
    (h : building.climate.indoorDesignTemp ≤ outdoorTemp) :
    ∀ p ∈ components,
      (boilerTypes.contains p.2.type = true ∨
        pumpTypes.contains p.2.type = true) →
      ∃ st, getJ (runSimulationTick sq building zones components connections
          outdoorTemp) p.1 = some st ∧ st.status = "off" := by
  intro p hp _
  refine ⟨offState, ?_, rfl⟩
  rw [warm_all_off sq building zones components connections outdoorTemp h]
  apply getJ_of_forall_val
  · intro q hq
    rcases List.mem_map.1 hq with ⟨r, _, rfl⟩
    rfl
  · rw [List.map_map]
    exact List.mem_map_of_mem (Prod.fst ∘ fun p => (p.1, offState)) hp

/-- C4 witness: a boiler-and-zone system at an outdoor temperature of 75°
(above the 70° indoor design temperature). -/
theorem warm_boiler_pumps_off_witness :
    demoBuilding.climate.indoorDesignTemp ≤ 75 ∧
    ∃ st, getJ (runSimulationTick sqZero demoBuilding [zoneFixture]
        [("b1", mockBoiler)] [] 75) "b1" = some st ∧ st.status = "off" := by
  refine ⟨by norm_num [demoBuilding], ?_⟩
  exact warm_boiler_pumps_off sqZero demoBuilding [zoneFixture]
    [("b1", mockBoiler)] [] 75 (by norm_num [demoBuilding])
    ("b1", mockBoiler) (List.mem_singleton.2 rfl) (Or.inl (by decide))

-- ─────────────────────────────────────────────────────────────────────────────
-- C10: key-set totality and the emitted status vocabulary
-- ─────────────────────────────────────────────────────────────────────────────

theorem boilerState_status (c : HydronicComponent) (d : ℚ) (a : Bool) :
    (calculateBoilerState c d a).status = "off" ∨
    (calculateBoilerState c d a).status = "firing" := by
  simp only [calculateBoilerState]
  split_ifs <;> first
  | exact Or.inl rfl
  | exact Or.inr rfl

theorem emitterState_status (zf : Option ZoneFlow) (e : ℚ) :
    (calculateEmitterState zf e).status = "off" ∨
    (calculateEmitterState zf e).status = "running" := by
  cases zf with
  | none => exact Or.inl rfl
  | some zf =>
    simp only [calculateEmitterState]
    split_ifs
    · exact Or.inl rfl
    · exact Or.inr rfl

/-- Every sweep step either leaves the map unchanged or overwrites the
processed component's key with a state whose status is "off" or
"running". -/
theorem sweepStep_shape (boilerId : String) (boilerState : BoilerState)
    (anyZoneCalling : Bool) (componentZoneMap : List (String × String))
    (zoneFlowMap : List (String × ZoneFlow))
    (zoneDemandMap : List (String × ZoneDemand))
    (emittersPerZone : List (String × ℚ))
    (st : List (String × ComponentSimState))
    (p : String × HydronicComponent) :
    sweepStep boilerId boilerState anyZoneCalling componentZoneMap zoneFlowMap
        zoneDemandMap emittersPerZone st p = st ∨
      ∃ v : ComponentSimState, (v.status = "off" ∨ v.status = "running") ∧
        sweepStep boilerId boilerState anyZoneCalling componentZoneMap
          zoneFlowMap zoneDemandMap emittersPerZone st p = setJ st p.1 v := by
  simp only [sweepStep]
  by_cases hb : (p.1 == boilerId) = true
  · rw [if_pos hb]
    exact Or.inl rfl
  · rw [if_neg hb]
    by_cases hp : pumpTypes.contains p.2.type = true
    · rw [if_pos hp]
      refine Or.inr ⟨_, ?_, rfl⟩
      dsimp only
      split_ifs
      · exact Or.inr rfl
      · exact Or.inl rfl
    · rw [if_neg hp]
      by_cases hv : valveTypes.contains p.2.type = true
      · rw [if_pos hv]
        refine Or.inr ⟨_, ?_, rfl⟩
        dsimp only
        split_ifs
        · exact Or.inr rfl
        · exact Or.inl rfl
      · rw [if_neg hv]
        by_cases he : emitterTypesSim.contains p.2.type = true
        · rw [if_pos he]
          refine Or.inr ⟨_, ?_, rfl⟩
          exact (emitterState_status _ _).imp id id
        · rw [if_neg he]
          by_cases ha : (p.2.type == "air_separator" ||
              p.2.type == "expansion_tank") = true
          · rw [if_pos ha]
            refine Or.inr ⟨_, ?_, rfl⟩
            dsimp only
            split_ifs
            · exact Or.inr rfl
            · exact Or.inl rfl
          · rw [if_neg ha]
            exact Or.inl rfl

/-- C10: for every input, the map returned by `runSimulationTick` has
exactly the input components' ids as its key sequence (one state per
component, none missing, none extra), and every emitted status is one of
"off", "running" or "firing" — the fourth declared status value "call" is
never produced. -/
theorem tick_keys_and_statuses (sq : ℚ → ℚ) (building : BuildingConfig)
    (zones : List Zone) (components : List (String × HydronicComponent))
    (connections : List Connection) (outdoorTemp : ℚ) :
    (runSimulationTick sq building zones components connections
        outdoorTemp).map Prod.fst = components.map Prod.fst ∧
    (runSimulationTick sq building zones components connections
        outdoorTemp).all (fun q =>
          q.2.status == "off" || q.2.status == "running" ||
          q.2.status == "firing") = true := by
  simp only [runSimulationTick]
  cases hfind : components.find? (fun p => boilerTypes.contains p.2.type) with
  | none =>
    dsimp only
    constructor
    · rw [List.map_map]
      rfl
    · rw [List.all_eq_true]
      intro q hq
      rcases List.mem_map.1 hq with ⟨r, _, rfl⟩
      rfl
  | some pb =>
    obtain ⟨boilerId, boilerComp⟩ := pb
    dsimp only
    have hbmem : boilerId ∈
        (components.map (fun p => (p.1, offState))).map Prod.fst := by
      rw [List.map_map]
      exact List.mem_map_of_mem (Prod.fst ∘ fun p => (p.1, offState))
        (List.mem_of_find?_eq_some hfind)
    constructor
    · apply foldl_inv _ (fun (st : List (String × ComponentSimState)) =>
        st.map Prod.fst = components.map Prod.fst)
      · rw [setJ_map_fst _ _ _ hbmem, List.map_map]
        rfl
      · intro s p hp hs
        rcases sweepStep_shape boilerId _ _ _ _ _ _ s p with heq | ⟨v, _, heq⟩
        · rw [heq]
          exact hs
        · rw [heq, setJ_map_fst _ _ _ (by
            rw [hs]
            exact List.mem_map_of_mem Prod.fst hp)]
          exact hs
    · rw [List.all_eq_true]
      apply foldl_inv _ (fun (st : List (String × ComponentSimState)) =>
        ∀ q ∈ st, (q.2.status == "off" || q.2.status == "running" ||
          q.2.status == "firing") = true)
      · intro q hq
        rcases mem_setJ hq with hq | hq
        · rcases List.mem_map.1 hq with ⟨r, _, rfl⟩
          rfl
        · rw [hq]
          rcases boilerState_status boilerComp
              ((calculateZoneDemands sq building zones components connections
                outdoorTemp).foldl (fun sum z => sum + z.currentHeatLoss) 0)
              ((calculateZoneDemands sq building zones components connections
                outdoorTemp).any fun z => z.isCalling) with hb | hb <;>
            simp [hb]
      · intro s p hp hs q hq
        rcases sweepStep_shape boilerId _ _ _ _ _ _ s p with heq | ⟨v, hv, heq⟩
        · rw [heq] at hq
          exact hs q hq
        · rw [heq] at hq
          rcases mem_setJ hq with hq | hq
          · exact hs q hq
          · rw [hq]
            rcases hv with hv | hv <;> simp [hv]

-- ─────────────────────────────────────────────────────────────────────────────
-- C9: locked components keep their exact positions
-- ─────────────────────────────────────────────────────────────────────────────

/-- The position-extraction fold of `autoLayoutSystem` written as a `map`:
each component id gets exactly one position, locked ids keeping their own. -/
theorem autoLayout_positions_eq_map (dagreNode : String → Option Position)
    (components : List (String × HydronicComponent)) (pipes : List String)
    (connections : List Connection) (zones : List Zone)
    (options : LayoutOptionsPartial)
    (hnodup : (components.map Prod.fst).Nodup) :
    (autoLayoutSystem dagreNode components pipes connections zones
        options).componentPositions =
      components.map (fun p => (p.1,
        if ((mergeOptions options).lockedComponentIds.getD []).contains p.1 then
          p.2.position
        else
          match dagreNode p.1 with
          | some node =>
            ⟨jround ((node.x - (getComponentDimensions p.2).1 / 2) /
                (mergeOptions options).gridSize) * (mergeOptions options).gridSize,
             jround ((node.y - (getComponentDimensions p.2).2 / 2) /
                (mergeOptions options).gridSize) * (mergeOptions options).gridSize⟩
          | none => p.2.position)) := by
  simp only [autoLayoutSystem]
  rw [List.foldl_ext _
    (fun (m : List (String × Position)) (p : String × HydronicComponent) =>
      setJ m p.1
        (if ((mergeOptions options).lockedComponentIds.getD []).contains p.1 then
          p.2.position
        else
          match dagreNode p.1 with
          | some node =>
            ⟨jround ((node.x - (getComponentDimensions p.2).1 / 2) /
                (mergeOptions options).gridSize) * (mergeOptions options).gridSize,
             jround ((node.y - (getComponentDimensions p.2).2 / 2) /
                (mergeOptions options).gridSize) * (mergeOptions options).gridSize⟩
          | none => p.2.position))]
  · rw [foldl_setJ_eq_map _ components [] (by simp) hnodup]
    simp
  · intro m q _
    by_cases h : ((mergeOptions options).lockedComponentIds.getD []).contains q.1 = true
    · rw [if_pos h, if_pos h]
    · rw [if_neg h, if_neg h]
      cases dagreNode q.1 with
      | none => rfl
      | some node => rfl

/-- C9: for every layout input, every component whose id is in the
supplied `lockedComponentIds` keeps exactly its existing position in the
returned `componentPositions` — locked components are never repositioned
or grid-snapped. -/
theorem locked_positions_unchanged (dagreNode : String → Option Position)
    (components : List (String × HydronicComponent)) (pipes : List String)
    (connections : List Connection) (zones : List Zone)
    (options : LayoutOptionsPartial) (locked : List String)
    (hlocked : options.lockedComponentIds = some locked)
    (hnodup : (components.map Prod.fst).Nodup) :
    ∀ p ∈ components, locked.contains p.1 = true →
      getJ (autoLayoutSystem dagreNode components pipes connections zones
          options).componentPositions p.1 = some p.2.position := by
  intro p hp hcont
  rw [autoLayout_positions_eq_map dagreNode components pipes connections zones
    options hnodup]
  have hmem : (p.1, p.2) ∈ components := by
    rwa [Prod.mk.eta]
  rw [getJ_map_pairs _ components p.1 p.2 hnodup hmem]
  have hgetd : (mergeOptions options).lockedComponentIds.getD [] = locked := by
    simp [mergeOptions, hlocked]
  rw [hgetd, if_pos hcont]

/-- C9 witness: one boiler, locked, with a dagre result that would have
moved it — its returned position is its existing position. -/
theorem locked_positions_unchanged_witness :
    (LayoutOptionsPartial.mk none none none none none none
        (some ["b1"])).lockedComponentIds = some ["b1"] ∧
    getJ (autoLayoutSystem (fun _ => some ⟨500, 500⟩) [("b1", mockBoiler)] []
        [] [] (LayoutOptionsPartial.mk none none none none none none
          (some ["b1"]))).componentPositions "b1" = some mockBoiler.position :=
  ⟨rfl,
   locked_positions_unchanged (fun _ => some ⟨500, 500⟩) [("b1", mockBoiler)]
     [] [] [] (LayoutOptionsPartial.mk none none none none none none
       (some ["b1"])) ["b1"] rfl (by decide) ("b1", mockBoiler)
     (List.mem_singleton.2 rfl) (by decide)⟩

-- ─────────────────────────────────────────────────────────────────────────────
-- C7: buildComponentZoneMap totality and the mechanical sentinel
-- ─────────────────────────────────────────────────────────────────────────────

theorem foldlSetJ_keys_mono (key : String) (l : List String)
    (m : List (String × String)) (k : String) (h : k ∈ m.map Prod.fst) :
    k ∈ (l.foldl (fun acc v => setJ acc key v) m).map Prod.fst := by
  induction l generalizing m with
  | nil => exact h
  | cons v l ih => exact ih (setJ m key v) (mem_keys_setJ h)

theorem foldlSetJ_keys_sub (key : String) (l : List String)
    (m : List (String × String)) (k : String)
    (h : k ∈ (l.foldl (fun acc v => setJ acc key v) m).map Prod.fst) :
    k ∈ m.map Prod.fst ∨ k = key := by
  induction l generalizing m with
  | nil => exact Or.inl h
  | cons v l ih =>
    rcases ih (setJ m key v) h with h' | h'
    · exact keys_setJ_sub h'
    · exact Or.inr h'

theorem foldlSetJ_getJ_ne (key : String) (l : List String)
    (m : List (String × String)) (k : String) (h : k ≠ key) :
    getJ (l.foldl (fun acc v => setJ acc key v) m) k = getJ m k := by
  induction l generalizing m with
  | nil => rfl
  | cons v l ih =>
    rw [List.foldl_cons, ih (setJ m key v), getJ_setJ_ne m k key v h]

theorem foldlSetJ_nodup (key : String) (l : List String)
    (m : List (String × String)) (h : (m.map Prod.fst).Nodup) :
    ((l.foldl (fun acc v => setJ acc key v) m).map Prod.fst).Nodup := by
  induction l generalizing m with
  | nil => exact h
  | cons v l ih => exact ih (setJ m key v) (setJ_keys_nodup m key v h)

theorem foldlSetJ_forall_val (key : String) (l : List String)
    (m : List (String × String)) (c : String) (hl : ∀ v ∈ l, v = c)
    (h : ∀ q ∈ m, q.2 = c) :
    ∀ q ∈ l.foldl (fun acc v => setJ acc key v) m, q.2 = c := by
  induction l generalizing m with
  | nil => exact h
  | cons v l ih =>
    apply ih (setJ m key v) (fun v hv => hl v (List.mem_cons_of_mem _ hv))
    intro q hq
    rcases mem_setJ hq with hq | hq
    · exact h q hq
    · rw [hq, hl v (List.mem_cons_self v l)]

/-- Every pass-2 step is either the identity (already-assigned component)
or a chain of writes at the processed component's own key. -/
theorem pass2Step_cases (zones : List Zone)
    (adjacency : List (String × List String)) (m : List (String × String))
    (p : String × HydronicComponent) :
    pass2Step zones adjacency m p = m ∨
    (hasJ m p.1 = false ∧ ∃ l : List String,
      pass2Step zones adjacency m p =
        l.foldl (fun acc v => setJ acc p.1 v) m) := by
  simp only [pass2Step]
  by_cases h0 : hasJ m p.1 = true
  · rw [if_pos h0]
    exact Or.inl rfl
  · rw [if_neg h0]
    refine Or.inr ⟨by simpa using h0, ?_⟩
    cases hfz : zones.find? (zoneNameMatches (lowerStr p.2.name)) with
    | none =>
      dsimp only
      by_cases hvt : (p.2.type == "zone_valve_2way" ||
          p.2.type == "zone_valve_3way") = true
      · rw [if_pos hvt]
        cases hnb : ((getJ adjacency p.1).getD []).findSome? (fun neighborId =>
            match getJ m neighborId with
            | some neighborZone =>
              if neighborZone != "" && neighborZone != "mechanical" then
                some neighborZone
              else none
            | none => none) with
        | none =>
          split_ifs with hc
          · cases zones with
            | nil => exact ⟨[], rfl⟩
            | cons z0 zs => exact ⟨[z0.id], rfl⟩
          · exact ⟨[], rfl⟩
        | some nz =>
          split_ifs with hc
          · cases zones with
            | nil => exact ⟨[nz], rfl⟩
            | cons z0 zs => exact ⟨[nz, z0.id], rfl⟩
          · exact ⟨[nz], rfl⟩
      · rw [if_neg hvt]
        split_ifs with hc
        · cases zones with
          | nil => exact ⟨[], rfl⟩
          | cons z0 zs => exact ⟨[z0.id], rfl⟩
        · exact ⟨[], rfl⟩
    | some zone =>
      dsimp only
      by_cases hvt : (p.2.type == "zone_valve_2way" ||
          p.2.type == "zone_valve_3way") = true
      · rw [if_pos hvt]
        cases hnb : ((getJ adjacency p.1).getD []).findSome? (fun neighborId =>
            match getJ (setJ m p.1 zone.id) neighborId with
            | some neighborZone =>
              if neighborZone != "" && neighborZone != "mechanical" then
                some neighborZone
              else none
            | none => none) with
        | none =>
          split_ifs with hc
          · cases zones with
            | nil => exact ⟨[zone.id], rfl⟩
            | cons z0 zs => exact ⟨[zone.id, z0.id], rfl⟩
          · exact ⟨[zone.id], rfl⟩
        | some nz =>
          split_ifs with hc
          · cases zones with
            | nil => exact ⟨[zone.id, nz], rfl⟩
            | cons z0 zs => exact ⟨[zone.id, nz, z0.id], rfl⟩
          · exact ⟨[zone.id, nz], rfl⟩
      · rw [if_neg hvt]
        split_ifs with hc
        · cases zones with
          | nil => exact ⟨[zone.id], rfl⟩
          | cons z0 zs => exact ⟨[zone.id, z0.id], rfl⟩
        · exact ⟨[zone.id], rfl⟩

theorem hasJ_iff {α : Type} (m : List (String × α)) (k : String) :
    hasJ m k = true ↔ k ∈ m.map Prod.fst :=
  any_key_iff m k

/-- Every pass-3 step is either the identity or a chain of writes at the
processed component's own key. -/
theorem pass3Step_cases (adjacency : List (String × List String))
    (m : List (String × String)) (p : String × HydronicComponent) :
    pass3Step adjacency m p = m ∨
    (hasJ m p.1 = false ∧ ∃ l : List String,
      pass3Step adjacency m p = l.foldl (fun acc v => setJ acc p.1 v) m) := by
  simp only [pass3Step]
  by_cases h0 : (!hasJ m p.1) = true
  · rw [if_pos h0]
    cases hnb : ((getJ adjacency p.1).getD []).findSome? (fun neighborId =>
        match getJ m neighborId with
        | some neighborZone =>
          if neighborZone != "" then some neighborZone else none
        | none => none) with
    | none =>
      dsimp only
      rw [if_pos h0]
      exact Or.inr ⟨by simpa using h0, ["mechanical"], rfl⟩
    | some nz =>
      dsimp only
      have h1 : hasJ (setJ m p.1 nz) p.1 = true :=
        (hasJ_iff _ _).2 (self_mem_keys_setJ m p.1 nz)
      rw [if_neg (by simp [h1])]
      exact Or.inr ⟨by simpa using h0, [nz], rfl⟩
  · rw [if_neg h0, if_neg h0]
    exact Or.inl rfl

/-- A pass-3 step always leaves the processed component's id bound. -/
theorem pass3Step_key (adjacency : List (String × List String))
    (m : List (String × String)) (p : String × HydronicComponent) :
    p.1 ∈ (pass3Step adjacency m p).map Prod.fst := by
  simp only [pass3Step]
  by_cases h0 : (!hasJ m p.1) = true
  · rw [if_pos h0]
    cases hnb : ((getJ adjacency p.1).getD []).findSome? (fun neighborId =>
        match getJ m neighborId with
        | some neighborZone =>
          if neighborZone != "" then some neighborZone else none
        | none => none) with
    | none =>
      dsimp only
      rw [if_pos h0]
      exact self_mem_keys_setJ m p.1 "mechanical"
    | some nz =>
      dsimp only
      have h1 : hasJ (setJ m p.1 nz) p.1 = true :=
        (hasJ_iff _ _).2 (self_mem_keys_setJ m p.1 nz)
      rw [if_neg (by simp [h1])]
      exact self_mem_keys_setJ m p.1 nz
  · rw [if_neg h0, if_neg h0]
    have h0' : hasJ m p.1 = true := by simpa using h0
    exact (hasJ_iff m p.1).1 h0'

/-- With no zones and no connections, a pass-2 step changes nothing. -/
theorem pass2Step_nil (m : List (String × String))
    (p : String × HydronicComponent) : pass2Step [] [] m p = m := by
  simp only [pass2Step]
  by_cases h0 : hasJ m p.1 = true
  · rw [if_pos h0]
  · rw [if_neg h0]
    simp only [List.find?_nil]
    have hadj : getJ ([] : List (String × List String)) p.1 = none := rfl
    rw [hadj]
    simp only [Option.getD_none, List.findSome?_nil]
    split_ifs <;> rfl

/-- With an empty adjacency map, a pass-3 step just applies the
`"mechanical"` fallback to unassigned components. -/
theorem pass3Step_nil (m : List (String × String))
    (p : String × HydronicComponent) :
    pass3Step [] m p =
      if hasJ m p.1 = true then m else setJ m p.1 "mechanical" := by
  simp only [pass3Step]
  have hadj : getJ ([] : List (String × List String)) p.1 = none := rfl
  rw [hadj]
  simp only [Option.getD_none, List.findSome?_nil]
  by_cases h0 : (!hasJ m p.1) = true
  · rw [if_pos h0]
    rw [if_pos h0, if_neg (by simpa using h0)]
  · rw [if_neg h0, if_neg h0, if_pos (by simpa using h0)]

theorem pass2Step_keys_mono (zones : List Zone)
    (adjacency : List (String × List String)) (m : List (String × String))
    (p : String × HydronicComponent) (k : String)
    (h : k ∈ m.map Prod.fst) :
    k ∈ (pass2Step zones adjacency m p).map Prod.fst := by
  rcases pass2Step_cases zones adjacency m p with heq | ⟨_, l, heq⟩
  · rwa [heq]
  · rw [heq]
    exact foldlSetJ_keys_mono p.1 l m k h

theorem pass3Step_keys_mono (adjacency : List (String × List String))
    (m : List (String × String)) (p : String × HydronicComponent) (k : String)
    (h : k ∈ m.map Prod.fst) :
    k ∈ (pass3Step adjacency m p).map Prod.fst := by
  rcases pass3Step_cases adjacency m p with heq | ⟨_, l, heq⟩
  · rwa [heq]
  · rw [heq]
    exact foldlSetJ_keys_mono p.1 l m k h

theorem pass2Step_keys_sub (zones : List Zone)
    (adjacency : List (String × List String)) (m : List (String × String))
    (p : String × HydronicComponent) (k : String)
    (h : k ∈ (pass2Step zones adjacency m p).map Prod.fst) :
    k ∈ m.map Prod.fst ∨ k = p.1 := by
  rcases pass2Step_cases zones adjacency m p with heq | ⟨_, l, heq⟩
  · rw [heq] at h
    exact Or.inl h
  · rw [heq] at h
    exact foldlSetJ_keys_sub p.1 l m k h

theorem pass3Step_keys_sub (adjacency : List (String × List String))
    (m : List (String × String)) (p : String × HydronicComponent) (k : String)
    (h : k ∈ (pass3Step adjacency m p).map Prod.fst) :
    k ∈ m.map Prod.fst ∨ k = p.1 := by
  rcases pass3Step_cases adjacency m p with heq | ⟨_, l, heq⟩
  · rw [heq] at h
    exact Or.inl h
  · rw [heq] at h
    exact foldlSetJ_keys_sub p.1 l m k h

theorem mem_keys_of_getJ {α : Type} {m : List (String × α)} {k : String}
    {v : α} (h : getJ m k = some v) : k ∈ m.map Prod.fst := by
  by_contra hc
  rw [(getJ_eq_none_iff m k).2 hc] at h
  cases h

theorem pass2Step_getJ_pres (zones : List Zone)
    (adjacency : List (String × List String)) (m : List (String × String))
    (p : String × HydronicComponent) (k : String) (v : String)
    (h : getJ m k = some v) :
    getJ (pass2Step zones adjacency m p) k = some v := by
  rcases pass2Step_cases zones adjacency m p with heq | ⟨hfree, l, heq⟩
  · rwa [heq]
  · rw [heq]
    have hk : k ∈ m.map Prod.fst := mem_keys_of_getJ h
    have hne : k ≠ p.1 := by
      intro hc
      rw [hc] at hk
      rw [(hasJ_iff m p.1).2 hk] at hfree
      cases hfree
    rw [foldlSetJ_getJ_ne p.1 l m k hne]
    exact h

theorem pass3Step_getJ_pres (adjacency : List (String × List String))
    (m : List (String × String)) (p : String × HydronicComponent) (k : String)
    (v : String) (h : getJ m k = some v) :
    getJ (pass3Step adjacency m p) k = some v := by
  rcases pass3Step_cases adjacency m p with heq | ⟨hfree, l, heq⟩
  · rwa [heq]
  · rw [heq]
    have hk : k ∈ m.map Prod.fst := mem_keys_of_getJ h
    have hne : k ≠ p.1 := by
      intro hc
      rw [hc] at hk
      rw [(hasJ_iff m p.1).2 hk] at hfree
      cases hfree
    rw [foldlSetJ_getJ_ne p.1 l m k hne]
    exact h

theorem pass2Step_nodup (zones : List Zone)
    (adjacency : List (String × List String)) (m : List (String × String))
    (p : String × HydronicComponent) (h : (m.map Prod.fst).Nodup) :
    ((pass2Step zones adjacency m p).map Prod.fst).Nodup := by
  rcases pass2Step_cases zones adjacency m p with heq | ⟨_, l, heq⟩
  · rwa [heq]
  · rw [heq]
    exact foldlSetJ_nodup p.1 l m h

theorem pass3Step_nodup (adjacency : List (String × List String))
    (m : List (String × String)) (p : String × HydronicComponent)
    (h : (m.map Prod.fst).Nodup) :
    ((pass3Step adjacency m p).map Prod.fst).Nodup := by
  rcases pass3Step_cases adjacency m p with heq | ⟨_, l, heq⟩
  · rwa [heq]
  · rw [heq]
    exact foldlSetJ_nodup p.1 l m h

theorem foldl_pass3_total (adjacency : List (String × List String))
    (l : List (String × HydronicComponent)) :
    ∀ (m : List (String × String)), ∀ p ∈ l,
      p.1 ∈ (l.foldl (pass3Step adjacency) m).map Prod.fst := by
  induction l with
  | nil => simp
  | cons q l ih =>
    intro m p hp
    rw [List.foldl_cons]
    rcases List.mem_cons.1 hp with rfl | hp
    · apply foldl_inv (pass3Step adjacency)
        (fun st => p.1 ∈ st.map Prod.fst) l (pass3Step adjacency m p)
        (pass3Step_key adjacency m p)
      intro s b _ hs
      exact pass3Step_keys_mono adjacency s b p.1 hs
    · exact ih (pass3Step adjacency m q) p hp

theorem pass1_values (components : List (String × HydronicComponent)) :
    ∀ q ∈ components.foldl (fun m p =>
        if mechanicalTypes.contains p.2.type then setJ m p.1 "mechanical"
        else m) [],
      q.2 = "mechanical" := by
  apply foldl_inv _ (fun (m : List (String × String)) =>
    ∀ q ∈ m, q.2 = "mechanical")
  · intro q hq
    simp at hq
  · intro s b _ hs q hq
    by_cases hb : mechanicalTypes.contains b.2.type = true
    · rw [if_pos hb] at hq
      rcases mem_setJ hq with hq | hq
      · exact hs q hq
      · rw [hq]
    · rw [if_neg hb] at hq
      exact hs q hq

theorem pass1_keys_sub (components : List (String × HydronicComponent)) :
    ∀ k ∈ (components.foldl (fun m p =>
        if mechanicalTypes.contains p.2.type then setJ m p.1 "mechanical"
        else m) []).map Prod.fst,
      k ∈ components.map Prod.fst := by
  apply foldl_inv _ (fun (m : List (String × String)) =>
    ∀ k ∈ m.map Prod.fst, k ∈ components.map Prod.fst)
  · intro k hk
    simp at hk
  · intro s b hb hs k hk
    by_cases hm : mechanicalTypes.contains b.2.type = true
    · rw [if_pos hm] at hk
      rcases keys_setJ_sub hk with hk | hk
      · exact hs k hk
      · rw [hk]
        exact List.mem_map_of_mem Prod.fst hb
    · rw [if_neg hm] at hk
      exact hs k hk

theorem pass1_nodup (components : List (String × HydronicComponent)) :
    ((components.foldl (fun m p =>
        if mechanicalTypes.contains p.2.type then setJ m p.1 "mechanical"
        else m) []).map Prod.fst).Nodup := by
  apply foldl_inv _ (fun (m : List (String × String)) =>
    (m.map Prod.fst).Nodup)
  · simp
  · intro s b _ hs
    by_cases hm : mechanicalTypes.contains b.2.type = true
    · rw [if_pos hm]
      exact setJ_keys_nodup s b.1 "mechanical" hs
    · rw [if_neg hm]
      exact hs

theorem pass1_mech_key (components : List (String × HydronicComponent)) :
    ∀ (m : List (String × String)), ∀ p ∈ components,
      mechanicalTypes.contains p.2.type = true →
      p.1 ∈ (components.foldl (fun m p =>
        if mechanicalTypes.contains p.2.type then setJ m p.1 "mechanical"
        else m) m).map Prod.fst := by
  induction components with
  | nil => simp
  | cons q l ih =>
    intro m p hp hmech
    rw [List.foldl_cons]
    rcases List.mem_cons.1 hp with rfl | hp
    · rw [if_pos hmech]
      apply foldl_inv _ (fun (st : List (String × String)) =>
        p.1 ∈ st.map Prod.fst) l (setJ m p.1 "mechanical")
        (self_mem_keys_setJ m p.1 "mechanical")
      intro s b _ hs
      by_cases hm : mechanicalTypes.contains b.2.type = true
      · rw [if_pos hm]
        exact mem_keys_setJ hs
      · rw [if_neg hm]
        exact hs
    · exact ih _ p hp hmech

/-- C7: `buildComponentZoneMap` is a total classification: its keys are
(without duplicates) exactly the component ids; every component of a
mechanical type is mapped to the sentinel `"mechanical"`; and a component
with no connections and no zones to match (nothing for the name heuristic
or neighbor propagation to do) defaults to `"mechanical"`. -/
theorem zoneMap_total_classification
    (components : List (String × HydronicComponent))
    (connections : List Connection) (zones : List Zone) :
    ((buildComponentZoneMap components connections zones).map Prod.fst).Nodup ∧
    (∀ k, k ∈ (buildComponentZoneMap components connections zones).map
        Prod.fst ↔ k ∈ components.map Prod.fst) ∧
    (∀ p ∈ components, mechanicalTypes.contains p.2.type = true →
      getJ (buildComponentZoneMap components connections zones) p.1 =
        some "mechanical") ∧
    (∀ p ∈ components,
      getJ (buildComponentZoneMap components [] []) p.1 =
        some "mechanical") := by
  have hunfold : ∀ (conns : List Connection) (zs : List Zone),
      buildComponentZoneMap components conns zs =
        components.foldl (pass3Step (buildAdjacency conns))
          (components.foldl (pass2Step zs (buildAdjacency conns))
            (components.foldl (fun m p =>
              if mechanicalTypes.contains p.2.type then
                setJ m p.1 "mechanical"
              else m) [])) := fun _ _ => rfl
  refine ⟨?_, ?_, ?_, ?_⟩
  · rw [hunfold]
    apply foldl_inv _ (fun (st : List (String × String)) =>
      (st.map Prod.fst).Nodup)
    · apply foldl_inv _ (fun (st : List (String × String)) =>
        (st.map Prod.fst).Nodup)
      · exact pass1_nodup components
      · intro s b _ hs
        exact pass2Step_nodup zones (buildAdjacency connections) s b hs
    · intro s b _ hs
      exact pass3Step_nodup (buildAdjacency connections) s b hs
  · intro k
    constructor
    · rw [hunfold]
      intro hk
      revert k
      apply foldl_inv _ (fun (st : List (String × String)) =>
        ∀ k, k ∈ st.map Prod.fst → k ∈ components.map Prod.fst)
      · apply foldl_inv _ (fun (st : List (String × String)) =>
          ∀ k, k ∈ st.map Prod.fst → k ∈ components.map Prod.fst)
        · intro k hk
          exact pass1_keys_sub components k hk
        · intro s b hb hs k hk
          rcases pass2Step_keys_sub zones (buildAdjacency connections) s b k hk
            with hk | hk
          · exact hs k hk
          · rw [hk]
            exact List.mem_map_of_mem Prod.fst hb
      · intro s b hb hs k hk
        rcases pass3Step_keys_sub (buildAdjacency connections) s b k hk
          with hk | hk
        · exact hs k hk
        · rw [hk]
          exact List.mem_map_of_mem Prod.fst hb
    · intro hk
      rcases List.mem_map.1 hk with ⟨p, hp, rfl⟩
      rw [hunfold]
      exact foldl_pass3_total (buildAdjacency connections) components _ p hp
  · intro p hp hmech
    rw [hunfold]
    have h1 : getJ (components.foldl (fun m p =>
        if mechanicalTypes.contains p.2.type then setJ m p.1 "mechanical"
        else m) []) p.1 = some "mechanical" :=
      getJ_of_forall_val (pass1_values components)
        (pass1_mech_key components [] p hp hmech)
    have h2 : getJ (components.foldl
        (pass2Step zones (buildAdjacency connections))
        (components.foldl (fun m p =>
          if mechanicalTypes.contains p.2.type then setJ m p.1 "mechanical"
          else m) [])) p.1 = some "mechanical" := by
      apply foldl_inv _ (fun (st : List (String × String)) =>
        getJ st p.1 = some "mechanical") _ _ h1
      intro s b _ hs
      exact pass2Step_getJ_pres zones (buildAdjacency connections) s b _ _ hs
    apply foldl_inv _ (fun (st : List (String × String)) =>
      getJ st p.1 = some "mechanical") _ _ h2
    intro s b _ hs
    exact pass3Step_getJ_pres (buildAdjacency connections) s b _ _ hs
  · intro p hp
    rw [hunfold]
    have hadj : buildAdjacency ([] : List Connection) = [] := rfl
    rw [hadj]
    have h2 : components.foldl (pass2Step [] [])
        (components.foldl (fun m p =>
          if mechanicalTypes.contains p.2.type then setJ m p.1 "mechanical"
          else m) []) =
        components.foldl (fun m p =>
          if mechanicalTypes.contains p.2.type then setJ m p.1 "mechanical"
          else m) [] := by
      apply foldl_inv _ (fun (st : List (String × String)) =>
        st = components.foldl (fun m p =>
          if mechanicalTypes.contains p.2.type then setJ m p.1 "mechanical"
          else m) []) _ _ rfl
      intro s b _ hs
      rw [pass2Step_nil s b, hs]
    rw [h2]
    have hvals : ∀ q ∈ components.foldl (pass3Step [])
        (components.foldl (fun m p =>
          if mechanicalTypes.contains p.2.type then setJ m p.1 "mechanical"
          else m) []),
        q.2 = "mechanical" := by
      apply foldl_inv _ (fun (st : List (String × String)) =>
        ∀ q ∈ st, q.2 = "mechanical") _ _ (pass1_values components)
      intro s b _ hs q hq
      rw [pass3Step_nil s b] at hq
      by_cases hb : hasJ s b.1 = true
      · rw [if_pos hb] at hq
        exact hs q hq
      · rw [if_neg hb] at hq
        rcases mem_setJ hq with hq | hq
        · exact hs q hq
        · rw [hq]
    exact getJ_of_forall_val hvals
      (foldl_pass3_total [] components _ p hp)

/-- C7 witness: a gas boiler (a mechanical type) is classified as
`"mechanical"`; so is an isolated component with no zones and no
connections. -/
theorem zoneMap_total_classification_witness :
    mechanicalTypes.contains mockBoiler.type = true ∧
    getJ (buildComponentZoneMap [("b1", mockBoiler)] [] [zoneFixture]) "b1" =
      some "mechanical" :=
  ⟨by decide,
   (zoneMap_total_classification [("b1", mockBoiler)] [] [zoneFixture]).2.2.1
     ("b1", mockBoiler) (List.mem_singleton.2 rfl) (by decide)⟩
